import Mathlib

/-!
Verification of the client-side network reconciliation system of
`grumpy_visitors` (`src/bins/client/src/ecs/systems/client_network.rs`).

The per-tick routine `ClientNetworkSystem::run` is embedded as pure Lean
functions over an explicit client state.  Machine integers (`u64`) are
modelled as `Nat`; Rust's `saturating_sub` coincides with `Nat`
subtraction.  Fallible code (panics, `assert!`, `expect`, out-of-bounds
indexing) is modelled with `Except FatalError`.

Types and helpers that live in other crates of the repository
(`gv_core`, `gv_client_shared`) are not part of the provided source; those
are modelled from the specification and marked `Modelled from the spec:`
in their doc comments.
-/

namespace GrumpyClient

/-- Network action update carried inside a `ServerWorldUpdate`
(`NetUpdate` in `gv_core`): an acting entity's net id plus an opaque
action payload. -/
structure NetUpdate where
  entity_net_id : Nat
  payload : Nat
deriving DecidableEq, Repr

/-- One unit of an `UpdateWorld` batch (`ServerWorldUpdate` in `gv_core`):
per-frame spawn actions and per-entity walk/cast/look action updates,
exactly the fields accessed by `client_network.rs`. -/
structure ServerWorldUpdate where
  frame_number : Nat
  spawn_actions : List Nat
  player_walk_actions_updates : List NetUpdate
  player_cast_actions_updates : List NetUpdate
  player_look_actions_updates : List NetUpdate
deriving DecidableEq, Repr

/-- Modelled from the spec: `PredictedPlayerUpdate` — the subset of a
`ServerWorldUpdate`'s walk/cast actions belonging to locally-controlled
entities (`ReceivedPlayerUpdate` in `gv_core`).  The source
(`collect_controlled_player_updates`) pushes into exactly the two fields
below; there is no look field, so a removed look action is kept nowhere. -/
structure ReceivedPlayerUpdate where
  player_walk_actions_updates : List NetUpdate := []
  player_cast_actions_updates : List NetUpdate := []
deriving DecidableEq, Repr

/-- Modelled from the spec: a slot of the general Frame Buffer
(`ReceivedServerWorldUpdate` in `gv_core`): holds the server's broadcast
updates for one frame plus the extracted controlled-player updates. -/
structure ReceivedServerWorldUpdate where
  frame_number : Nat
  controlled_player_updates : ReceivedPlayerUpdate := {}
  player_walk_actions_updates : List NetUpdate := []
  player_cast_actions_updates : List NetUpdate := []
  player_look_actions_updates : List NetUpdate := []
  spawn_actions : List Nat := []
deriving DecidableEq, Repr

/-- Modelled from the spec: merging a server update into a slot never
overwrites already-present data of a different category, it only
appends/merges (`ReceivedServerWorldUpdate::apply_server_update`).
The slot's frame number is untouched. -/
def ReceivedServerWorldUpdate.apply_server_update
    (slot : ReceivedServerWorldUpdate) (u : ServerWorldUpdate) :
    ReceivedServerWorldUpdate :=
  { slot with
    player_walk_actions_updates :=
      slot.player_walk_actions_updates ++ u.player_walk_actions_updates
    player_cast_actions_updates :=
      slot.player_cast_actions_updates ++ u.player_cast_actions_updates
    player_look_actions_updates :=
      slot.player_look_actions_updates ++ u.player_look_actions_updates }

/-- Modelled from the spec: a slot of the spawn Frame Buffer
(`SpawnActions` in `gv_core`). -/
structure SpawnActions where
  frame_number : Nat
  spawn_actions : List Nat := []
deriving DecidableEq, Repr

/-- Client-assigned action data inside a buffered walk action
(`ClientActionUpdate` in `gv_core`); `discard_walk_actions` matches on
`data.client_action_id`. -/
structure ClientActionUpdate where
  client_action_id : Nat
  payload : Nat
deriving DecidableEq, Repr

/-- A buffered client walk action (`NetUpdate<ClientActionUpdate<..>>`). -/
structure WalkActionNetUpdate where
  entity_net_id : Nat
  data : ClientActionUpdate
deriving DecidableEq, Repr

/-- Modelled from the spec: a slot of the client-side predicted-action
Frame Buffer (`PlayerActionUpdates` in `gv_core`).  `walk_action_updates`
is the field scanned by `discard_walk_actions`; the other action category
is carried along to state that it is untouched. -/
structure PlayerActionUpdates where
  frame_number : Nat
  walk_action_updates : List WalkActionNetUpdate := []
  cast_action_updates : List WalkActionNetUpdate := []
deriving DecidableEq, Repr

/-- Modelled from the spec: generic Frame Buffer (`FramedUpdates<T>` in
`gv_core`): an ordered window of per-frame slots with an
`oldest_updated_frame` watermark. -/
structure FramedUpdates (T : Type) where
  oldest_updated_frame : Nat
  updates : List T
deriving DecidableEq, Repr

/-- Modelled from the spec: the interface a Frame Buffer slot type
provides — its frame number and a fresh (empty) slot for a given frame. -/
class Framed (T : Type) where
  frame_number : T → Nat
  new_update : Nat → T
  frame_number_new : ∀ n, frame_number (new_update n) = n

instance : Framed ReceivedServerWorldUpdate where
  frame_number := ReceivedServerWorldUpdate.frame_number
  new_update := fun n => { frame_number := n }
  frame_number_new := fun _ => rfl

instance : Framed SpawnActions where
  frame_number := SpawnActions.frame_number
  new_update := fun n => { frame_number := n }
  frame_number_new := fun _ => rfl

instance : Framed PlayerActionUpdates where
  frame_number := PlayerActionUpdates.frame_number
  new_update := fun n => { frame_number := n }
  frame_number_new := fun _ => rfl

/-- Frame number of the most recent (back) slot, `0` for an empty buffer. -/
def FramedUpdates.latest_frame [Framed T] (fu : FramedUpdates T) : Nat :=
  ((fu.updates.map Framed.frame_number).getLast?).getD 0

/-- Frame number the next appended slot would get. -/
def FramedUpdates.next_frame [Framed T] (fu : FramedUpdates T) : Nat :=
  match (fu.updates.map Framed.frame_number).getLast? with
  | some f => f + 1
  | none => 0

/-- Modelled from the spec: `reserve(up_to_frame)` extends the back of the
buffer with fresh consecutive slots until it covers at least the given
frame, without shrinking the front (`FramedUpdates::reserve_updates`). -/
def FramedUpdates.reserve_updates [Framed T] (fu : FramedUpdates T)
    (frame : Nat) : FramedUpdates T :=
  { fu with
    updates := fu.updates ++
      (List.range' fu.next_frame (frame + 1 - fu.next_frame)).map
        (fun n => Framed.new_update n) }

/-- Modelled from the spec: the slots visited by
`FramedUpdates::updates_iter_mut(start)` — every slot from the first one
whose frame number is at least `start` (an ordered window, so this is the
suffix past the slots below `start`). -/
def FramedUpdates.slots_from [Framed T] (fu : FramedUpdates T)
    (start : Nat) : List T :=
  fu.updates.dropWhile (fun u => Framed.frame_number u < start)

/-- Fatal conditions of the per-event processing: each constructor is one
`panic!`, failed `assert!`, failed `expect` or out-of-bounds index in
`ClientNetworkSystem::run` / `apply_world_updates`. -/
inductive FatalError where
  /-- `expect("Expected to be connected when receiving StartGame message")`. -/
  | startGameNoConnectionId
  /-- `entity_net_ids[i]` out-of-bounds panic in the `StartGame` handler. -/
  | startGameIndexOutOfBounds
  /-- `panic!("Couldn't found a player with connection id {}")`. -/
  | startGameSelfNotFound
  /-- `assert!` "Tried to apply a too old ServerUpdate" in `apply_world_updates`. -/
  | staleServerUpdate
  /-- `framed_updates.updates.front().unwrap()` on an empty buffer. -/
  | emptyFrameBuffer
deriving DecidableEq, Repr

/-- Removes the first element satisfying `p` from a list and returns it,
mirroring the Rust pattern `position(..)` followed by `remove(pos)`. -/
def extractFirst (p : α → Bool) : List α → Option α × List α
  | [] => (none, [])
  | a :: as =>
    if p a then (some a, as)
    else
      let r := extractFirst p as
      (r.1, a :: r.2)

/-- Whether an action update belongs to one of the controlled players
(`controlled_players.contains(&action.entity_net_id)`). -/
def isControlled (controlled_players : List Nat) (a : NetUpdate) : Bool :=
  controlled_players.contains a.entity_net_id

/-- One iteration of the `map` closure in
`collect_controlled_player_updates`: extract (and remove) the first
controlled walk action and the first controlled cast action into a
`ReceivedPlayerUpdate`, and remove (keeping nowhere) the first controlled
look action. -/
def extract_controlled_update (controlled_players : List Nat)
    (u : ServerWorldUpdate) : ReceivedPlayerUpdate × ServerWorldUpdate :=
  let w := extractFirst (isControlled controlled_players) u.player_walk_actions_updates
  let c := extractFirst (isControlled controlled_players) u.player_cast_actions_updates
  let l := extractFirst (isControlled controlled_players) u.player_look_actions_updates
  ({ player_walk_actions_updates := w.1.toList
     player_cast_actions_updates := c.1.toList },
   { u with
     player_walk_actions_updates := w.2
     player_cast_actions_updates := c.2
     player_look_actions_updates := l.2 })

/-- Translation of `collect_controlled_player_updates`: the leading run of
updates with `frame_number < INTERPOLATION_FRAME_DELAY` is skipped
(`skip_while` — "Skips the first 10 frames, as there shouldn't be any
player updates on game start"); every later update has its controlled
walk/cast actions extracted and its controlled look action removed.
Returns the collected `ReceivedPlayerUpdate`s and the mutated update
stream (the Rust function mutates `incoming_updates` in place). -/
def collect_controlled_player_updates (DELAY : Nat)
    (controlled_players : List Nat) (incoming_updates : List ServerWorldUpdate) :
    List ReceivedPlayerUpdate × List ServerWorldUpdate :=
  let pre := incoming_updates.takeWhile (fun u => u.frame_number < DELAY)
  let post := incoming_updates.dropWhile (fun u => u.frame_number < DELAY)
  let pairs := post.map (extract_controlled_update controlled_players)
  (pairs.map Prod.fst, pre ++ pairs.map Prod.snd)

/-- The zipped write loop of `apply_world_updates` over the spawn buffer:
`spawn_actions.updates_iter_mut(start).zip(incoming_updates.iter())`
assigns each successive slot the successive update's `spawn_actions`,
stopping when either side is exhausted. -/
def writeSpawnSlots : List SpawnActions → List ServerWorldUpdate → List SpawnActions
  | slots, [] => slots
  | [], _ => []
  | s :: slots, u :: us =>
    { s with spawn_actions := u.spawn_actions } :: writeSpawnSlots slots us

/-- The write loop of `apply_world_updates` over the general buffer: each
visited slot takes the next collected controlled-player update (while any
remain), and — once the slot's frame number reaches `others_start` — the
next incoming server update is merged in; the loop returns early when the
incoming updates run out. -/
def writeGeneralSlots (others_start : Nat) :
    List ReceivedServerWorldUpdate → List ReceivedPlayerUpdate →
    List ServerWorldUpdate → List ReceivedServerWorldUpdate
  | [], _, _ => []
  | s :: slots, cps, ins =>
    let s1 := match cps with
      | [] => s
      | c :: _ => { s with controlled_player_updates := c }
    let cps1 := match cps with
      | [] => ([] : List ReceivedPlayerUpdate)
      | _ :: cs => cs
    if s.frame_number ≥ others_start then
      match ins with
      | [] => s1 :: slots
      | u :: us => s1.apply_server_update u :: writeGeneralSlots others_start slots cps1 us
    else
      s1 :: writeGeneralSlots others_start slots cps1 ins

/-- Translation of `apply_world_updates` (expects `incoming_updates`
sorted, lowest frame first).  Rejects with the fatal `assert!` when the
batch's first frame (after the interpolation-delay offset) precedes the
buffer's front frame; otherwise extracts the controlled-player updates,
writes spawn actions into the spawn buffer starting at the batch's first
frame, and merges the rest into the general buffer starting at the
delayed offset. -/
def apply_world_updates (DELAY : Nat) (controlled_players : List Nat)
    (framed_updates : FramedUpdates ReceivedServerWorldUpdate)
    (spawn_actions : FramedUpdates SpawnActions)
    (incoming_updates : List ServerWorldUpdate) :
    Except FatalError
      (FramedUpdates ReceivedServerWorldUpdate × FramedUpdates SpawnActions) :=
  match incoming_updates with
  | [] => .ok (framed_updates, spawn_actions)
  | first :: _ =>
    match framed_updates.updates.head? with
    | none => .error .emptyFrameBuffer
    | some front =>
      if first.frame_number - DELAY < front.frame_number then
        .error .staleServerUpdate
      else
        let collected :=
          collect_controlled_player_updates DELAY controlled_players incoming_updates
        match collected.2.head? with
        | none => .error .emptyFrameBuffer
        | some f =>
          let controlled_start := f.frame_number - DELAY
          let others_start := f.frame_number
          let spawn1 : FramedUpdates SpawnActions :=
            { oldest_updated_frame := others_start
              updates :=
                spawn_actions.updates.takeWhile
                  (fun s => s.frame_number < others_start) ++
                writeSpawnSlots
                  (spawn_actions.updates.dropWhile
                    (fun s => s.frame_number < others_start))
                  collected.2 }
          let framed1 : FramedUpdates ReceivedServerWorldUpdate :=
            { oldest_updated_frame := controlled_start
              updates :=
                framed_updates.updates.takeWhile
                  (fun s => s.frame_number < controlled_start) ++
                writeGeneralSlots others_start
                  (framed_updates.updates.dropWhile
                    (fun s => s.frame_number < controlled_start))
                  collected.1 collected.2 }
          .ok (framed1, spawn1)

/-- The stateful `retain` closure of `discard_walk_actions` over one
frame's walk actions: an action whose `client_action_id` matches a
still-pending discarded id is dropped (consuming that id), everything
else is kept.  Returns the kept actions, the remaining pending ids, and
whether any removal happened. -/
def retainWalk : List Nat → List WalkActionNetUpdate →
    List WalkActionNetUpdate × List Nat × Bool
  | pending, [] => ([], pending, false)
  | pending, a :: as =>
    match pending.findIdx? (fun d => d = a.data.client_action_id) with
    | some i =>
      let r := retainWalk (pending.eraseIdx i) as
      (r.1, r.2.1, true)
    | none =>
      let r := retainWalk pending as
      (a :: r.1, r.2.1, r.2.2)

/-- The frame loop of `discard_walk_actions`, already iterating over the
reversed slot list (most recent frame first).  Each frame's walk actions
go through `retainWalk`; a removal overwrites the tracked
`oldest_updated_frame` with that frame; the loop breaks once all pending
ids are matched. -/
def discardRev : List PlayerActionUpdates → List Nat → Nat →
    List PlayerActionUpdates × Nat
  | [], _, oldest => ([], oldest)
  | u :: us, pending, oldest =>
    let r := retainWalk pending u.walk_action_updates
    let u1 := { u with walk_action_updates := r.1 }
    let oldest1 := if r.2.2 then u.frame_number else oldest
    if r.2.1.isEmpty then (u1 :: us, oldest1)
    else
      let rest := discardRev us r.2.1 oldest1
      (u1 :: rest.1, rest.2)

/-- Translation of `discard_walk_actions`: scan the buffered frames from
most recent to oldest, removing buffered walk actions that match a
still-pending discarded id, and store the tracked oldest updated frame
back into the buffer. -/
def discard_walk_actions (client_player_updates : FramedUpdates PlayerActionUpdates)
    (discarded_updates : List Nat) : FramedUpdates PlayerActionUpdates :=
  let r := discardRev client_player_updates.updates.reverse discarded_updates
    client_player_updates.oldest_updated_frame
  { oldest_updated_frame := r.2, updates := r.1.reverse }

/-- Reference definition following the spec's words for one frame of the
discard scan: remove every buffered walk action whose client-assigned
action id matches a still-unmatched entry of the pending ids, consuming
the matched entry (its first occurrence) from the pending set; every
other action is kept in order.  Returns the kept actions and the
remaining pending ids. -/
def removeMatchedSpec : List Nat → List WalkActionNetUpdate →
    List WalkActionNetUpdate × List Nat
  | pending, [] => ([], pending)
  | pending, a :: as =>
    if a.data.client_action_id ∈ pending then
      removeMatchedSpec (pending.erase a.data.client_action_id) as
    else
      let r := removeMatchedSpec pending as
      (a :: r.1, r.2)

/-- Reference definition following the spec's words for the whole discard
scan over the reversed slot list (most recent frame first): each visited
frame has its matched walk actions removed by `removeMatchedSpec`; the
tracked earliest removal frame (`none` while no removal has occurred) is
overwritten with the visited frame whenever that frame lost an action;
the scan stops — leaving all remaining (older) frames untouched — once
every id has been matched. -/
def discardScanSpec : List PlayerActionUpdates → List Nat → Option Nat →
    List PlayerActionUpdates × Option Nat
  | [], _, removed => ([], removed)
  | u :: us, pending, removed =>
    let r := removeMatchedSpec pending u.walk_action_updates
    let removed1 := if r.1.length < u.walk_action_updates.length
      then some u.frame_number else removed
    if r.2.isEmpty then ({ u with walk_action_updates := r.1 } :: us, removed1)
    else
      let rest := discardScanSpec us r.2 removed1
      ({ u with walk_action_updates := r.1 } :: rest.1, rest.2)

/-- Reference definition following the spec's words for
`discard_walk_actions`: scan the buffered frames from most recent to
oldest through `discardScanSpec`, and set `oldest_updated_frame` to the
earliest frame at which a removal occurred (unconditionally whenever any
removal occurred, unchanged otherwise). -/
def discard_walk_actions_spec (client_player_updates : FramedUpdates PlayerActionUpdates)
    (discarded_updates : List Nat) : FramedUpdates PlayerActionUpdates :=
  let r := discardScanSpec client_player_updates.updates.reverse discarded_updates none
  { oldest_updated_frame := r.2.getD client_player_updates.oldest_updated_frame
    updates := r.1.reverse }

/-- Stable insertion step for sorting a batch by `frame_number`
(`updates.sort_by(|a, b| a.frame_number.cmp(&b.frame_number))` — Rust's
`sort_by` is stable, so an element is inserted after strictly smaller
frames and before equal-or-larger ones). -/
def insertByFrame (u : ServerWorldUpdate) :
    List ServerWorldUpdate → List ServerWorldUpdate
  | [] => [u]
  | v :: vs =>
    if v.frame_number < u.frame_number then v :: insertByFrame u vs
    else u :: v :: vs

/-- Stable sort of an `UpdateWorld` batch by ascending `frame_number`. -/
def sortUpdatesByFrame : List ServerWorldUpdate → List ServerWorldUpdate
  | [] => []
  | u :: us => insertByFrame u (sortUpdatesByFrame us)

/-- Maximum `frame_number` occurring in a batch (`0` for an empty batch). -/
def maxFrame (l : List ServerWorldUpdate) : Nat :=
  l.foldr (fun u m => max u.frame_number m) 0

/-- Disconnect reasons (`DisconnectReason` in `gv_core`).  Modelled from
the spec: the reasons named there are `Closed` and `ServerCrashed(code)`;
other wire reasons are collapsed into `Other`. -/
inductive DisconnectReason where
  | Closed
  | ServerCrashed (code : Int)
  | Other
deriving DecidableEq, Repr

/-- Modelled from the spec: the connection status state machine
(`ConnectionStatus` in `gv_client_shared`):
`Disconnected(reason) | Connecting(start_time) | Connected(connection_id)
 | Disconnecting | ConnectionFailed(reason)`. -/
inductive ConnectionStatus where
  | Disconnected (reason : Option DisconnectReason)
  | Connecting (started_at : Nat)
  | Connected (connection_id : Nat)
  | Disconnecting
  | ConnectionFailed (reason : Option DisconnectReason)
deriving DecidableEq, Repr

/-- Modelled from the spec: `is_not_connected` — the terminal statuses
(`Disconnected`, `ConnectionFailed`) count as not connected. -/
def ConnectionStatus.is_not_connected : ConnectionStatus → Bool
  | .Disconnected _ => true
  | .ConnectionFailed _ => true
  | _ => false

/-- Modelled from the spec: `connection_id()` — the status "holds a
connection id" exactly in the `Connected` state. -/
def ConnectionStatus.connection_id : ConnectionStatus → Option Nat
  | .Connected id => some id
  | _ => none

/-- Engine state enum; only the `Playing` transition matters here. -/
inductive GameEngineState where
  | Menu
  | Playing
deriving DecidableEq, Repr

/-- A roster entry (`PlayerRecord`): connection id and assigned entity
net id. -/
structure Player where
  connection_id : Nat
  entity_net_id : Nat
deriving DecidableEq, Repr

/-- Client-to-server message payloads sent by this system. -/
inductive ClientMessagePayload where
  | JoinRoom (sent_at : Nat) (nickname : Nat)
  | StartHostedGame
  | Heartbeat
  | AcknowledgeWorldUpdate (id : Nat)
  | Kick (kicked_connection_id : Nat)
  | Disconnect
deriving DecidableEq, Repr

/-- Reliability class of a send (`send_message_reliable` /
`send_message_unreliable`). -/
inductive Reliability where
  | reliable
  | unreliable
deriving DecidableEq, Repr

/-- A send recorded by the embedding: reliability class plus payload. -/
abbrev Sent := Reliability × ClientMessagePayload

/-- Server-to-client message payloads (`ServerMessagePayload`). -/
inductive ServerMessagePayload where
  | Heartbeat
  | Ping (n : Nat)
  | Pong (n : Nat)
  | Handshake (net_id : Nat) (is_host : Bool)
  | UpdateRoomPlayers (players : List Player)
  | StartGame (entity_net_ids : List Nat)
  | UpdateWorld (id : Nat) (updates : List ServerWorldUpdate)
  | DiscardWalkActions (ids : List Nat)
  | PauseWaitingForPlayers (id : Nat) (players : List Nat)
  | UnpauseWaitingForPlayers (id : Nat)
  | Disconnect (reason : DisconnectReason)
deriving DecidableEq, Repr

/-- A framed server message: session id plus payload. -/
structure ServerMessage where
  session_id : Nat
  payload : ServerMessagePayload
deriving DecidableEq, Repr

/-- Transport events drained from the connection event queue. -/
inductive NetEvent where
  | Message (m : ServerMessage)
  | Connected
  | Disconnected
deriving DecidableEq, Repr

/-- A message event carrying a session id and a payload. -/
def messageEvent (sid : Nat) (p : ServerMessagePayload) : NetEvent :=
  .Message { session_id := sid, payload := p }

/-- The single connection record (`NetConnectionModel`): connection id,
session id, disconnected flag. -/
structure NetConnectionModel where
  id : Nat
  session_id : Nat
  disconnected : Bool
deriving DecidableEq, Repr

/-- Room state (`MultiplayerRoomState`), restricted to the fields touched
by the message handlers. -/
structure MultiplayerRoomState where
  is_host : Bool
  nickname : Nat
  connection_status : ConnectionStatus
  player_net_id : Nat
  has_sent_join_message : Bool
deriving DecidableEq, Repr

/-- Game state (`MultiplayerGameState`), restricted to the fields touched
by the message handlers. -/
structure MultiplayerGameState where
  is_playing : Bool
  players : List Player
  waiting_for_players : Bool
  waiting_for_players_pause_id : Nat
  lagging_players : List Nat
  waiting_network : Bool
deriving DecidableEq, Repr

/-- The acknowledgement cursor (`LastAcknowledgedUpdate`): id and frame of
the last absorbed `UpdateWorld`. -/
structure LastAcknowledgedUpdate where
  id : Nat
  frame_number : Nat
deriving DecidableEq, Repr

/-- All state mutated by the per-event dispatch of
`ClientNetworkSystem::run`. -/
structure ClientState where
  conn : NetConnectionModel
  room : MultiplayerRoomState
  game : MultiplayerGameState
  ack : LastAcknowledgedUpdate
  framed_updates : FramedUpdates ReceivedServerWorldUpdate
  player_actions_updates : FramedUpdates PlayerActionUpdates
  spawn_actions : FramedUpdates SpawnActions
  new_engine_state : GameEngineState
deriving DecidableEq, Repr

/-- Ambient inputs of one tick read from collaborator services:
`INTERPOLATION_FRAME_DELAY`, the 1-second reconnect grace window,
`Instant::now()`, the unix timestamp used in `JoinRoom`, and
`game_time_service.game_frame_number()`. -/
structure Env where
  delay : Nat
  grace : Nat
  now : Nat
  now_unix : Nat
  game_frame : Nat
deriving DecidableEq, Repr

/-- First dispatch filter: with the connection marked `disconnected`,
every event except a transport `Disconnected` or a `Handshake` message is
ignored. -/
def ignoredWhenDisconnected : NetEvent → Bool
  | .Disconnected => false
  | .Message { payload := .Handshake _ _, .. } => false
  | _ => true

/-- Third dispatch filter: while playing, lobby-phase payloads are
dropped. -/
def isLobbyPayload : ServerMessagePayload → Bool
  | .Handshake _ _ => true
  | .UpdateRoomPlayers _ => true
  | .StartGame _ => true
  | _ => false

/-- The `StartGame` roster loop: assign `entity_net_ids[i]` to
`players[i]` positionally (out-of-bounds indexing is the OOB panic), and
track the entity net id of the player whose `connection_id` matches ours
(the last match wins, as each match overwrites `player_net_id`). -/
def assignEntityIds (connection_id : Nat) :
    List Player → List Nat → Except FatalError (List Player × Option Nat)
  | [], _ => .ok ([], none)
  | _ :: _, [] => .error .startGameIndexOutOfBounds
  | p :: ps, eid :: eids =>
    match assignEntityIds connection_id ps eids with
    | .error e => .error e
    | .ok r =>
      let foundLater := r.2
      let foundHere : Option Nat :=
        if connection_id = p.connection_id then some eid else none
      .ok ({ p with entity_net_id := eid } :: r.1,
           match foundLater with
           | some x => some x
           | none => foundHere)

/-- Handler of `ServerMessagePayload::StartGame` (lines 286–323): reset
the ack cursor, require a connection id, assign entity net ids
positionally, fail fatally when the local player is not in the roster,
then start playing. -/
def handle_start_game (st : ClientState) (entity_net_ids : List Nat) :
    List Sent × Except FatalError ClientState :=
  match st.room.connection_status.connection_id with
  | none => ([], .error .startGameNoConnectionId)
  | some connection_id =>
    match assignEntityIds connection_id st.game.players entity_net_ids with
    | .error e => ([], .error e)
    | .ok r =>
      match r.2 with
      | none => ([], .error .startGameSelfNotFound)
      | some net_id =>
        ([], .ok { st with
          ack := { id := 0, frame_number := 0 }
          game := { st.game with players := r.1, is_playing := true }
          room := { st.room with player_net_id := net_id }
          new_engine_state := .Playing })

/-- Handler of `ServerMessagePayload::UpdateWorld` (lines 324–355): always
acknowledge (unreliably); absorb the batch only when `id` is strictly
greater than the ack cursor's id, in which case the batch is sorted, the
cursor advanced, both frame buffers reserved and the batch merged. -/
def handle_update_world (env : Env) (st : ClientState) (id : Nat)
    (updates : List ServerWorldUpdate) :
    List Sent × Except FatalError ClientState :=
  let sent : List Sent := [(.unreliable, .AcknowledgeWorldUpdate id)]
  if st.ack.id < id then
    let sorted := sortUpdatesByFrame updates
    let ack1 : LastAcknowledgedUpdate :=
      { id := id
        frame_number :=
          max st.ack.frame_number
            (((sorted.getLast?).map (fun u => u.frame_number)).getD 0) }
    let frame_to_reserve := max ack1.frame_number env.game_frame
    let fu := st.framed_updates.reserve_updates frame_to_reserve
    let sa := st.spawn_actions.reserve_updates frame_to_reserve
    match apply_world_updates env.delay [st.room.player_net_id] fu sa sorted with
    | .error e => (sent, .error e)
    | .ok r =>
      (sent, .ok { st with ack := ack1, framed_updates := r.1, spawn_actions := r.2 })
  else
    (sent, .ok st)

/-- Handler of `ServerMessagePayload::Handshake` (lines 252–281): send the
join message if not yet sent, become `Connected`, record the host flag. -/
def handle_handshake (env : Env) (st : ClientState) (net_id : Nat)
    (is_host : Bool) : List Sent × Except FatalError ClientState :=
  let sent : List Sent :=
    if st.room.has_sent_join_message then []
    else [(.reliable, .JoinRoom env.now_unix st.room.nickname)]
  (sent, .ok { st with room :=
    { st.room with
      has_sent_join_message := true
      connection_status := .Connected net_id
      is_host := is_host } })

/-- Handler of `ServerMessagePayload::Disconnect` (lines 375–395): ignored
when already not connected; a self-initiated `Disconnecting` status is not
overwritten by the server's reason. -/
def handle_disconnect_message (st : ClientState) (reason : DisconnectReason) :
    List Sent × Except FatalError ClientState :=
  if st.room.connection_status.is_not_connected then ([], .ok st)
  else
    match st.room.connection_status with
    | .Disconnecting => ([], .ok st)
    | _ => ([], .ok { st with room :=
        { st.room with connection_status := .Disconnected (some reason) } })

/-- Handler of the transport `Disconnected` event (lines 399–412): ignored
when not connected, or when a `Connecting` status is younger than the
grace window; otherwise the connection failed. -/
def handle_transport_disconnected (env : Env) (st : ClientState) :
    ClientState :=
  let ignore : Bool :=
    match st.room.connection_status with
    | .Connecting started_at => decide (env.now - started_at < env.grace)
    | s => s.is_not_connected
  if ignore then st
  else { st with room :=
    { st.room with connection_status := .ConnectionFailed none } }

/-- Payload dispatch table of `ClientNetworkSystem::run` (lines 246–396),
reached after the three pre-filters. -/
def dispatch_payload (env : Env) (st : ClientState) :
    ServerMessagePayload → List Sent × Except FatalError ClientState
  | .Heartbeat => ([], .ok st)
  | .Ping _ => ([], .ok st)
  | .Pong _ => ([], .ok st)
  | .Handshake net_id is_host => handle_handshake env st net_id is_host
  | .UpdateRoomPlayers players =>
    ([], .ok { st with game := { st.game with players := players } })
  | .StartGame entity_net_ids => handle_start_game st entity_net_ids
  | .UpdateWorld id updates => handle_update_world env st id updates
  | .DiscardWalkActions ids =>
    ([], .ok { st with player_actions_updates :=
      discard_walk_actions st.player_actions_updates ids })
  | .PauseWaitingForPlayers id players =>
    if st.game.waiting_for_players_pause_id < id then
      ([], .ok { st with game :=
        { st.game with waiting_for_players_pause_id := id
                       lagging_players := players } })
    else ([], .ok st)
  | .UnpauseWaitingForPlayers id =>
    if st.game.waiting_for_players_pause_id ≤ id then
      ([], .ok { st with game :=
        { st.game with waiting_for_players := false
                       waiting_for_players_pause_id := id
                       lagging_players := [] } })
    else ([], .ok st)
  | .Disconnect reason => handle_disconnect_message st reason

/-- Processing of one drained connection event (lines 200–414): the
disconnected-model filter, the session-id filter and the gameplay-phase
filter in order, then the payload dispatch.  Returns the messages sent
while handling the event and the resulting state (or the fatal error that
aborts the session). -/
def process_event (env : Env) (st : ClientState) (ev : NetEvent) :
    List Sent × Except FatalError ClientState :=
  if st.conn.disconnected && ignoredWhenDisconnected ev then ([], .ok st)
  else
    match ev with
    | .Message m =>
      if m.session_id ≠ st.conn.session_id then ([], .ok st)
      else if st.game.is_playing && isLobbyPayload m.payload then ([], .ok st)
      else dispatch_payload env st m.payload
    | .Disconnected => ([], .ok (handle_transport_disconnected env st))
    | .Connected => ([], .ok st)

/-- Folding `process_event` over a sequence of received `UpdateWorld`
messages (each carrying the connection's current session id), stopping at
the first fatal error. -/
def process_update_world_seq (env : Env) (st : ClientState) :
    List (Nat × List ServerWorldUpdate) → Except FatalError ClientState
  | [] => .ok st
  | (id, updates) :: rest =>
    match (process_event env st
        (messageEvent st.conn.session_id (.UpdateWorld id updates))).2 with
    | .error e => .error e
    | .ok st1 => process_update_world_seq env st1 rest

/-- The `waiting_network` update of one tick while playing (lines
441–468): for the first `DELAY` frames of a session the flag is forced on
(early return); at exactly frame `DELAY` it is first cleared; then the
steady-state hysteresis runs — a waiting client stays waiting until
`frames_ahead` reaches `0`, a non-waiting client starts waiting once
`frames_ahead` exceeds the pause threshold `T`. -/
def update_waiting_network (DELAY T : Nat)
    (absolute_frame local_frame last_ack_frame : Nat)
    (waiting : Bool) : Bool :=
  if absolute_frame < DELAY then true
  else
    let w0 := if absolute_frame = DELAY then false else waiting
    let frames_ahead := local_frame - (last_ack_frame - DELAY)
    if w0 then decide (frames_ahead ≠ 0) else decide (T < frames_ahead)

/-- A `ServerWorldUpdate` with a given frame and spawn actions and no
per-entity actions, for concrete evaluations. -/
def mkSpawnUpdate (f : Nat) (sp : List Nat) : ServerWorldUpdate :=
  { frame_number := f
    spawn_actions := sp
    player_walk_actions_updates := []
    player_cast_actions_updates := []
    player_look_actions_updates := [] }

/-- A concrete sample environment: delay 10, one-second grace window,
current simulated frame 25. -/
def sampleEnv : Env :=
  { delay := 10, grace := 1000, now := 0, now_unix := 0, game_frame := 25 }

/-- Empty general-buffer slots for frames `0 .. n`. -/
def generalSlotsUpTo (n : Nat) : List ReceivedServerWorldUpdate :=
  (List.range (n + 1)).map (fun k => { frame_number := k })

/-- Empty spawn-buffer slots for frames `0 .. n`. -/
def spawnSlotsUpTo (n : Nat) : List SpawnActions :=
  (List.range (n + 1)).map (fun k => { frame_number := k })

/-- A concrete in-game sample state: connected as connection id 2,
controlling entity net id 5, ack cursor at id 4. -/
def sampleState : ClientState :=
  { conn := { id := 0, session_id := 0, disconnected := false }
    room := { is_host := false, nickname := 0,
              connection_status := .Connected 2, player_net_id := 5,
              has_sent_join_message := true }
    game := { is_playing := true, players := [⟨1, 0⟩, ⟨2, 0⟩],
              waiting_for_players := false, waiting_for_players_pause_id := 0,
              lagging_players := [], waiting_network := false }
    ack := { id := 4, frame_number := 0 }
    framed_updates := { oldest_updated_frame := 0, updates := generalSlotsUpTo 0 }
    player_actions_updates := { oldest_updated_frame := 0, updates := [] }
    spawn_actions := { oldest_updated_frame := 0, updates := spawnSlotsUpTo 0 }
    new_engine_state := .Playing }

/-- The sample `UpdateWorld{id=5, frames=[20,21,22]}` event of the spec's
scenario, carrying the sample state's session id. -/
def sampleUpdateWorldEvent : NetEvent :=
  .Message { session_id := 0
             payload := .UpdateWorld 5
               [mkSpawnUpdate 20 [], mkSpawnUpdate 21 [], mkSpawnUpdate 22 []] }

/-- The sample state after absorbing `sampleUpdateWorldEvent`. -/
def sampleStateAfter : ClientState :=
  match (process_event sampleEnv sampleState sampleUpdateWorldEvent).2 with
  | .ok s => s
  | .error _ => sampleState

/-- First-match removal relation: `r` is `l` with exactly its first
`p`-satisfying element removed (that element being `e`), or `l` itself
when no element satisfies `p` (and then `e = none`).  The decomposition
`l = l₁ ++ a :: l₂` with a `p`-free prefix `l₁` pins *which* element was
removed: the first matching one. -/
def RemovedFirst (p : α → Bool) (l : List α) (e : Option α) (r : List α) : Prop :=
  (e = none ∧ r = l ∧ ∀ x ∈ l, p x = false) ∨
  (∃ l₁ a l₂, l = l₁ ++ a :: l₂ ∧ (∀ x ∈ l₁, p x = false) ∧ p a = true ∧
    e = some a ∧ r = l₁ ++ l₂)

/-- Specification relation for one update processed past the skipped
prefix of `collect_controlled_player_updates`: `c` is the predicted-player
update extracted from `u` and `u1` is what remains of `u` in the general
update stream.  The walk/cast extraction moves at most one controlled
action each out of the stream (and exactly one whenever one exists); the
controlled look action is removed from the stream without being kept
anywhere (the predicted update has no look field); frame number and spawn
actions are untouched.  The three `RemovedFirst` conjuncts pin that it is
the *first* controlled walk, cast, and look action that is removed. -/
def ControlledExtractionSpec (controlled_players : List Nat)
    (u : ServerWorldUpdate) (c : ReceivedPlayerUpdate)
    (u1 : ServerWorldUpdate) : Prop :=
  u1.frame_number = u.frame_number ∧
  u1.spawn_actions = u.spawn_actions ∧
  (c.player_walk_actions_updates ++ u1.player_walk_actions_updates).Perm
    u.player_walk_actions_updates ∧
  c.player_walk_actions_updates.length ≤ 1 ∧
  (∀ a ∈ c.player_walk_actions_updates, isControlled controlled_players a = true) ∧
  (c.player_walk_actions_updates = [] ↔
    ∀ a ∈ u.player_walk_actions_updates, isControlled controlled_players a = false) ∧
  List.Sublist u1.player_walk_actions_updates u.player_walk_actions_updates ∧
  (c.player_cast_actions_updates ++ u1.player_cast_actions_updates).Perm
    u.player_cast_actions_updates ∧
  c.player_cast_actions_updates.length ≤ 1 ∧
  (∀ a ∈ c.player_cast_actions_updates, isControlled controlled_players a = true) ∧
  (c.player_cast_actions_updates = [] ↔
    ∀ a ∈ u.player_cast_actions_updates, isControlled controlled_players a = false) ∧
  List.Sublist u1.player_cast_actions_updates u.player_cast_actions_updates ∧
  List.Sublist u1.player_look_actions_updates u.player_look_actions_updates ∧
  (∀ a ∈ u.player_look_actions_updates,
    a ∈ u1.player_look_actions_updates ∨ isControlled controlled_players a = true) ∧
  ((∃ a ∈ u.player_look_actions_updates, isControlled controlled_players a = true) →
    u1.player_look_actions_updates.length + 1 = u.player_look_actions_updates.length) ∧
  RemovedFirst (isControlled controlled_players) u.player_walk_actions_updates
    c.player_walk_actions_updates.head? u1.player_walk_actions_updates ∧
  RemovedFirst (isControlled controlled_players) u.player_cast_actions_updates
    c.player_cast_actions_updates.head? u1.player_cast_actions_updates ∧
  (∃ e, RemovedFirst (isControlled controlled_players) u.player_look_actions_updates
    e u1.player_look_actions_updates)

/-- An update inside the startup window (frame 3, below the interpolation
delay 10) carrying a walk action of the controlled entity 5. -/
def earlyControlledUpdate : ServerWorldUpdate :=
  { frame_number := 3
    spawn_actions := []
    player_walk_actions_updates := [{ entity_net_id := 5, payload := 0 }]
    player_cast_actions_updates := []
    player_look_actions_updates := [] }

/-- A predicted-action buffer whose only buffered walk action (client
action id 1) sits at frame 7, with `oldest_updated_frame = 3`. -/
def sampleWalkBuffer : FramedUpdates PlayerActionUpdates :=
  { oldest_updated_frame := 3
    updates := [{ frame_number := 3 }, { frame_number := 4 }, { frame_number := 5 },
                { frame_number := 6 },
                { frame_number := 7,
                  walk_action_updates := [{ entity_net_id := 0,
                                            data := { client_action_id := 1, payload := 0 } }] }] }

/-- Whether a discard scan changed a frame's buffered walk actions (the
pair holds the input slot and the corresponding output slot). -/
def walkActionsChanged (pr : PlayerActionUpdates × PlayerActionUpdates) : Bool :=
  decide (pr.2.walk_action_updates ≠ pr.1.walk_action_updates)

end GrumpyClient

namespace GrumpyClient

/-! ## Shared lemmas -/

/-- A message carrying the connection's current session id and a payload
that passes the disconnected filter and the gameplay-phase filter reaches
the dispatch table. -/
theorem process_event_dispatch (env : Env) (st : ClientState)
    (p : ServerMessagePayload) (hd : st.conn.disconnected = false)
    (hl : (st.game.is_playing && isLobbyPayload p) = false) :
    process_event env st (messageEvent st.conn.session_id p)
      = dispatch_payload env st p := by
  unfold process_event messageEvent
  simp [hd, hl]

/-- The roster loop can only fail with the out-of-bounds panic, and only
when the roster is strictly longer than the entity-id list. -/
theorem assignEntityIds_error (cid : Nat) (ps : List Player) (ids : List Nat)
    (e : FatalError) (h : assignEntityIds cid ps ids = .error e) :
    e = .startGameIndexOutOfBounds ∧ ids.length < ps.length := by
  induction ps generalizing ids with
  | nil => simp [assignEntityIds] at h
  | cons p ps ih =>
    cases ids with
    | nil =>
      refine ⟨?_, by simp⟩
      have : FatalError.startGameIndexOutOfBounds = e := by
        simpa [assignEntityIds] using h
      exact this.symm
    | cons i is =>
      cases hr : assignEntityIds cid ps is with
      | error e1 =>
        have he : e = e1 := by
          simp [assignEntityIds, hr] at h
          exact h.symm
        obtain ⟨h1, h2⟩ := ih is (he ▸ hr)
        exact ⟨h1, by simpa using Nat.succ_lt_succ h2⟩
      | ok r =>
        simp [assignEntityIds, hr] at h

/-- A roster strictly longer than the entity-id list hits the
out-of-bounds panic, regardless of whether the local player was already
found. -/
theorem assignEntityIds_oob (cid : Nat) (ps : List Player) (ids : List Nat)
    (h : ids.length < ps.length) :
    assignEntityIds cid ps ids = .error .startGameIndexOutOfBounds := by
  induction ps generalizing ids with
  | nil => simp at h
  | cons p ps ih =>
    cases ids with
    | nil => rfl
    | cons i is =>
      have := ih is (by simpa using Nat.lt_of_succ_lt_succ h)
      simp [assignEntityIds, this]

/-- With enough entity ids, the roster loop succeeds. -/
theorem assignEntityIds_ok_of_le (cid : Nat) (ps : List Player) (ids : List Nat)
    (h : ps.length ≤ ids.length) :
    ∃ r, assignEntityIds cid ps ids = .ok r := by
  cases hr : assignEntityIds cid ps ids with
  | ok r => exact ⟨r, rfl⟩
  | error e =>
    obtain ⟨-, h2⟩ := assignEntityIds_error cid ps ids e hr
    omega

/-! ## C10 — `StartGame` safety -/

/-- C10: processing a `StartGame(entity_net_ids)` message (passing the
dispatch filters) is free of out-of-bounds access and panics only on the
self-not-found protocol violation, provided the roster is not longer than
`entity_net_ids` and the connection status holds a connection id; when the
roster is longer, the handler aborts on the out-of-bounds index, and when
the status holds no connection id it aborts on the failed connection-id
lookup — in both cases before the roster-membership check can fail. -/
theorem c10_start_game_safety (env : Env) (st : ClientState) (ids : List Nat)
    (hd : st.conn.disconnected = false) (hp : st.game.is_playing = false) :
    (∀ cid, st.room.connection_status = .Connected cid →
      st.game.players.length ≤ ids.length →
      ∀ e, (process_event env st (messageEvent st.conn.session_id (.StartGame ids))).2
          = .error e → e = .startGameSelfNotFound) ∧
    (∀ cid, st.room.connection_status = .Connected cid →
      ids.length < st.game.players.length →
      (process_event env st (messageEvent st.conn.session_id (.StartGame ids))).2
        = .error .startGameIndexOutOfBounds) ∧
    (st.room.connection_status.connection_id = none →
      (process_event env st (messageEvent st.conn.session_id (.StartGame ids))).2
        = .error .startGameNoConnectionId) := by
  have hdis : process_event env st (messageEvent st.conn.session_id (.StartGame ids))
      = dispatch_payload env st (.StartGame ids) :=
    process_event_dispatch env st _ hd (by simp [hp])
  rw [hdis]
  refine ⟨?_, ?_, ?_⟩
  · intro cid hc hlen e he
    rw [show dispatch_payload env st (.StartGame ids) = handle_start_game st ids from rfl,
      handle_start_game, hc] at he
    simp only [ConnectionStatus.connection_id] at he
    obtain ⟨r, hr⟩ := assignEntityIds_ok_of_le cid st.game.players ids hlen
    obtain ⟨ps2, found⟩ := r
    rw [hr] at he
    cases found with
    | none =>
      simp only at he
      exact (by simpa using he : FatalError.startGameSelfNotFound = e).symm
    | some x => simp at he
  · intro cid hc hlen
    rw [show dispatch_payload env st (.StartGame ids) = handle_start_game st ids from rfl,
      handle_start_game, hc]
    simp only [ConnectionStatus.connection_id]
    rw [assignEntityIds_oob cid st.game.players ids hlen]
  · intro hc
    rw [show dispatch_payload env st (.StartGame ids) = handle_start_game st ids from rfl,
      handle_start_game, hc]

/-- C10 witness: in the sample state (connected as connection id 2, roster
of two players) a `StartGame` carrying only one entity id aborts on the
out-of-bounds index, not on the roster-membership check. -/
theorem c10_witness :
    (process_event sampleEnv
        { sampleState with game := { sampleState.game with is_playing := false } }
        (messageEvent 0 (.StartGame [101]))).2
      = .error .startGameIndexOutOfBounds :=
  (c10_start_game_safety sampleEnv
      { sampleState with game := { sampleState.game with is_playing := false } }
      [101] rfl rfl).2.1 2 rfl (by decide)

/-! ## C9 — session isolation -/

/-- C9: a message event whose session id differs from the connection
record's current session id produces zero observable state change — the
whole client state is returned untouched and no message is sent. -/
theorem c9_session_isolation (env : Env) (st : ClientState) (m : ServerMessage)
    (h : m.session_id ≠ st.conn.session_id) :
    process_event env st (.Message m) = ([], .ok st) := by
  unfold process_event
  cases hd : st.conn.disconnected && ignoredWhenDisconnected (.Message m) with
  | true => simp
  | false => simp [h]

/-- C9 witness: a heartbeat message with stale session id 1 against the
sample state (session id 0) changes nothing and sends nothing. -/
theorem c9_witness :
    process_event sampleEnv sampleState (.Message { session_id := 1, payload := .Heartbeat })
      = ([], .ok sampleState) :=
  c9_session_isolation sampleEnv sampleState
    { session_id := 1, payload := .Heartbeat } (by decide)

/-! ## C7 — network-pause hysteresis -/

/-- C7 counterexample: on a tick during the startup window (absolute frame
`0 < INTERPOLATION_DELAY = 10`, threshold `T = 20`), `waiting_network`
transitions from `false` to `true` although
`frames_ahead = 0 - (0 - 10) = 0` is not greater than the threshold —
contradicting "transitions from false to true only when
`frames_ahead > T`". -/
theorem c7_counterexample :
    update_waiting_network 10 20 0 0 0 false = true ∧ ((0 : Nat) - (0 - 10)) = 0 := by
  decide

/-- C7 (amended): on every tick with absolute frame strictly greater than
`INTERPOLATION_DELAY` (i.e. past the startup window, where the
steady-state rule alone applies), `waiting_network` transitions from
`false` to `true` only when `frames_ahead > T` and from `true` to `false`
only when `frames_ahead = 0`, never at intermediate values. -/
theorem c7_pause_hysteresis (DELAY T absolute_frame local_frame last_ack_frame : Nat)
    (waiting : Bool) (h : DELAY < absolute_frame) :
    (waiting = false →
      update_waiting_network DELAY T absolute_frame local_frame last_ack_frame waiting = true →
      T < local_frame - (last_ack_frame - DELAY)) ∧
    (waiting = true →
      update_waiting_network DELAY T absolute_frame local_frame last_ack_frame waiting = false →
      local_frame - (last_ack_frame - DELAY) = 0) := by
  have h1 : ¬ absolute_frame < DELAY := by omega
  have h2 : ¬ absolute_frame = DELAY := by omega
  constructor
  · rintro rfl hw
    unfold update_waiting_network at hw
    simpa [h1, h2] using hw
  · rintro rfl hw
    unfold update_waiting_network at hw
    simpa [h1, h2] using hw

/-- C7 witness: at absolute frame 11 (past the window), a non-waiting
client that ends the tick waiting indeed has `frames_ahead > T`:
`26 - (0 - 10) = 26 > 20`. -/
theorem c7_witness : (20 : Nat) < 26 - (0 - 10) :=
  (c7_pause_hysteresis 10 20 11 26 0 false (by decide)).1 rfl (by decide)

/-! ## C8 — startup window of `waiting_network` -/

/-- C8 counterexample: at the tick where the absolute frame equals
`INTERPOLATION_DELAY = 10` exactly, `waiting_network` is not necessarily
false at the end of the tick: the startup rule clears it, but the
steady-state rule still runs in the same tick and re-raises it when
`frames_ahead = 31 - (0 - 10) = 31` exceeds the threshold `20`. -/
theorem c8_counterexample :
    update_waiting_network 10 20 10 31 0 true = true := by decide

/-- C8 (amended): while playing, for absolute frame `f`: if
`f < INTERPOLATION_DELAY` then `waiting_network` is true at the end of the
tick unconditionally; at `f = INTERPOLATION_DELAY` the startup rule clears
the flag but the steady-state rule still runs in that same tick, so the
end-of-tick value is `frames_ahead > T` (regardless of the previous
value); for `f > INTERPOLATION_DELAY` the startup rule never applies
again — the end-of-tick value is determined by the steady-state hysteresis
alone. -/
theorem c8_startup_window (DELAY T absolute_frame local_frame last_ack_frame : Nat)
    (waiting : Bool) :
    (absolute_frame < DELAY →
      update_waiting_network DELAY T absolute_frame local_frame last_ack_frame waiting = true) ∧
    (absolute_frame = DELAY →
      update_waiting_network DELAY T absolute_frame local_frame last_ack_frame waiting
        = decide (T < local_frame - (last_ack_frame - DELAY))) ∧
    (DELAY < absolute_frame →
      update_waiting_network DELAY T absolute_frame local_frame last_ack_frame waiting
        = if waiting then decide (local_frame - (last_ack_frame - DELAY) ≠ 0)
          else decide (T < local_frame - (last_ack_frame - DELAY))) := by
  refine ⟨?_, ?_, ?_⟩
  · intro h
    unfold update_waiting_network
    simp [h]
  · intro h
    have h1 : ¬ absolute_frame < DELAY := by omega
    unfold update_waiting_network
    simp [h1, h]
  · intro h
    have h1 : ¬ absolute_frame < DELAY := by omega
    have h2 : ¬ absolute_frame = DELAY := by omega
    unfold update_waiting_network
    cases waiting <;> simp [h1, h2]

/-- C8 witness: at absolute frame 5 (inside the startup window, delay 10)
the flag is forced on. -/
theorem c8_witness : update_waiting_network 10 20 5 0 0 false = true :=
  (c8_startup_window 10 20 5 0 0 false).1 (by decide)

/-! ## `extractFirst` lemmas -/

theorem extractFirst_fst_eq_none (p : α → Bool) (l : List α) :
    (extractFirst p l).1 = none ↔ ∀ a ∈ l, p a = false := by
  induction l with
  | nil => simp [extractFirst]
  | cons a as ih =>
    by_cases h : p a
    · simp [extractFirst, h]
    · have ha : p a = false := by simpa using h
      simp [extractFirst, h, ih, ha]

theorem extractFirst_snd_of_none (p : α → Bool) (l : List α)
    (h : (extractFirst p l).1 = none) : (extractFirst p l).2 = l := by
  induction l with
  | nil => rfl
  | cons a as ih =>
    by_cases hp : p a
    · simp [extractFirst, hp] at h
    · simp only [extractFirst, hp, if_neg, Bool.false_eq_true, not_false_iff] at h ⊢
      simp only [ih h]

theorem extractFirst_p_of_some (p : α → Bool) (l : List α) (a : α)
    (h : (extractFirst p l).1 = some a) : p a = true := by
  induction l with
  | nil => simp [extractFirst] at h
  | cons b bs ih =>
    by_cases hp : p b
    · simp [extractFirst, hp] at h
      exact h ▸ hp
    · simp only [extractFirst, hp, if_neg, Bool.false_eq_true, not_false_iff] at h
      exact ih h

theorem extractFirst_perm (p : α → Bool) (l : List α) :
    ((extractFirst p l).1.toList ++ (extractFirst p l).2).Perm l := by
  induction l with
  | nil => simp [extractFirst]
  | cons a as ih =>
    by_cases hp : p a
    · simp [extractFirst, hp]
    · simp only [extractFirst, hp, if_neg, Bool.false_eq_true, not_false_iff]
      exact (List.perm_middle).trans (List.Perm.cons a ih)

theorem extractFirst_sublist (p : α → Bool) (l : List α) :
    List.Sublist (extractFirst p l).2 l := by
  induction l with
  | nil => simp [extractFirst]
  | cons a as ih =>
    by_cases hp : p a
    · simp only [extractFirst, hp, if_pos]
      exact List.sublist_cons_self a as
    · simp only [extractFirst, hp, if_neg, Bool.false_eq_true, not_false_iff]
      exact List.Sublist.cons₂ a ih

/-- All the facts `ControlledExtractionSpec` needs about one
`extractFirst` application, bundled. -/
theorem extractFirst_spec (p : α → Bool) (l : List α) :
    ((extractFirst p l).1.toList ++ (extractFirst p l).2).Perm l ∧
    (extractFirst p l).1.toList.length ≤ 1 ∧
    (∀ a ∈ (extractFirst p l).1.toList, p a = true) ∧
    ((extractFirst p l).1.toList = [] ↔ ∀ a ∈ l, p a = false) ∧
    List.Sublist (extractFirst p l).2 l ∧
    (∀ a ∈ l, a ∈ (extractFirst p l).2 ∨ p a = true) ∧
    ((∃ a ∈ l, p a = true) → (extractFirst p l).2.length + 1 = l.length) := by
  refine ⟨extractFirst_perm p l, ?_, ?_, ?_, extractFirst_sublist p l, ?_, ?_⟩
  · cases (extractFirst p l).1 <;> simp
  · intro a ha
    cases hf : (extractFirst p l).1 with
    | none => rw [hf] at ha; simp at ha
    | some b =>
      rw [hf] at ha
      simp at ha
      exact ha ▸ extractFirst_p_of_some p l b hf
  · constructor
    · intro h
      refine (extractFirst_fst_eq_none p l).1 ?_
      cases hf : (extractFirst p l).1 with
      | none => rfl
      | some b => rw [hf] at h; simp at h
    · intro h
      rw [(extractFirst_fst_eq_none p l).2 h]
      rfl
  · intro a ha
    have hperm := extractFirst_perm p l
    rcases List.mem_append.1 (hperm.mem_iff.2 ha) with h1 | h2
    · right
      cases hf : (extractFirst p l).1 with
      | none => rw [hf] at h1; simp at h1
      | some b =>
        rw [hf] at h1
        simp at h1
        exact h1 ▸ extractFirst_p_of_some p l b hf
    · exact Or.inl h2
  · rintro ⟨a, ha, hpa⟩
    cases hf : (extractFirst p l).1 with
    | none =>
      have := (extractFirst_fst_eq_none p l).1 hf a ha
      rw [this] at hpa
      exact absurd hpa (by simp)
    | some b =>
      have hlen := (extractFirst_perm p l).length_eq
      rw [hf] at hlen
      simpa [Nat.add_comm] using hlen

theorem toList_head? (o : Option α) : o.toList.head? = o := by
  cases o <;> rfl

/-- `extractFirst` removes exactly the first `p`-satisfying element. -/
theorem extractFirst_removedFirst (p : α → Bool) (l : List α) :
    RemovedFirst p l (extractFirst p l).1 (extractFirst p l).2 := by
  induction l with
  | nil => exact Or.inl ⟨rfl, rfl, by simp⟩
  | cons a as ih =>
    by_cases hp : p a
    · refine Or.inr ⟨[], a, as, by simp, by simp, hp, ?_, ?_⟩
      · simp [extractFirst, hp]
      · simp [extractFirst, hp]
    · have hpa : p a = false := by simpa using hp
      rcases ih with ⟨h1, h2, h3⟩ | ⟨l₁, b, l₂, h1, h2, h3, h4, h5⟩
      · refine Or.inl ⟨?_, ?_, ?_⟩
        · simp [extractFirst, hp, h1]
        · simp [extractFirst, hp, h2]
        · intro x hx
          rcases List.mem_cons.1 hx with rfl | hx
          · exact hpa
          · exact h3 x hx
      · refine Or.inr ⟨a :: l₁, b, l₂, by simp [h1], ?_, h3, ?_, ?_⟩
        · intro x hx
          rcases List.mem_cons.1 hx with rfl | hx
          · exact hpa
          · exact h2 x hx
        · simp [extractFirst, hp, h4]
        · simp [extractFirst, hp, h5]

/-- One extraction step satisfies the extraction specification. -/
theorem extract_controlled_update_spec (controlled_players : List Nat)
    (u : ServerWorldUpdate) :
    ControlledExtractionSpec controlled_players u
      (extract_controlled_update controlled_players u).1
      (extract_controlled_update controlled_players u).2 := by
  obtain ⟨w1, w2, w3, w4, w5, -, -⟩ :=
    extractFirst_spec (isControlled controlled_players) u.player_walk_actions_updates
  obtain ⟨c1, c2, c3, c4, c5, -, -⟩ :=
    extractFirst_spec (isControlled controlled_players) u.player_cast_actions_updates
  obtain ⟨-, -, -, -, l5, l6, l7⟩ :=
    extractFirst_spec (isControlled controlled_players) u.player_look_actions_updates
  have hw8 : RemovedFirst (isControlled controlled_players)
      u.player_walk_actions_updates
      ((extractFirst (isControlled controlled_players)
        u.player_walk_actions_updates).1.toList.head?)
      (extractFirst (isControlled controlled_players)
        u.player_walk_actions_updates).2 := by
    rw [toList_head?]
    exact extractFirst_removedFirst _ _
  have hc8 : RemovedFirst (isControlled controlled_players)
      u.player_cast_actions_updates
      ((extractFirst (isControlled controlled_players)
        u.player_cast_actions_updates).1.toList.head?)
      (extractFirst (isControlled controlled_players)
        u.player_cast_actions_updates).2 := by
    rw [toList_head?]
    exact extractFirst_removedFirst _ _
  exact ⟨rfl, rfl, w1, w2, w3, w4, w5, c1, c2, c3, c4, c5, l5, l6, l7,
    hw8, hc8,
    ⟨(extractFirst (isControlled controlled_players)
        u.player_look_actions_updates).1,
      extractFirst_removedFirst _ _⟩⟩

/-! ## C3 — controlled-player extraction -/

/-- C3 counterexample: an absorbed update at frame 3 (inside the skipped
startup window, `INTERPOLATION_DELAY = 10`) carrying a walk action of the
controlled entity 5 is left untouched by the merge: nothing is extracted
into a predicted-player update and the walk action stays in the general
update stream — contradicting "for every update in an absorbed batch". -/
theorem c3_counterexample :
    collect_controlled_player_updates 10 [5] [earlyControlledUpdate]
      = ([], [earlyControlledUpdate]) := by decide

/-- C3 (amended): the merge skips the leading run of updates with frame
number below `INTERPOLATION_DELAY` (leaving them untouched, with no
predicted-player update produced); for every later update it extracts and
removes from the general update stream the first walk action and the
first cast action belonging to a locally-controlled entity (at most one
of each per update, and one whenever one is present) into a
predicted-player update to be re-merged at the delayed offset, and
removes — keeping nowhere — the first controlled look action. -/
theorem c3_controlled_extraction (DELAY : Nat) (controlled_players : List Nat)
    (incoming : List ServerWorldUpdate)
    (collected : List ReceivedPlayerUpdate) (out : List ServerWorldUpdate)
    (hcol : collect_controlled_player_updates DELAY controlled_players incoming
      = (collected, out)) :
    out.length = incoming.length ∧
    collected.length
      + (incoming.takeWhile (fun u => u.frame_number < DELAY)).length
      = incoming.length ∧
    out.take (incoming.takeWhile (fun u => u.frame_number < DELAY)).length
      = incoming.takeWhile (fun u => u.frame_number < DELAY) ∧
    (∀ k u c u1,
      incoming[(incoming.takeWhile (fun u => u.frame_number < DELAY)).length + k]?
        = some u →
      collected[k]? = some c →
      out[(incoming.takeWhile (fun u => u.frame_number < DELAY)).length + k]?
        = some u1 →
      ControlledExtractionSpec controlled_players u c u1) := by
  have hsplit := List.takeWhile_append_dropWhile
    (fun u => decide (u.frame_number < DELAY)) incoming
  set pre := incoming.takeWhile (fun u => decide (u.frame_number < DELAY)) with hpre
  set post := incoming.dropWhile (fun u => decide (u.frame_number < DELAY)) with hpost
  have hc1 : collected
      = (post.map (extract_controlled_update controlled_players)).map Prod.fst := by
    have h := congrArg Prod.fst hcol
    exact h.symm
  have hc2 : out
      = pre ++ (post.map (extract_controlled_update controlled_players)).map Prod.snd := by
    have h := congrArg Prod.snd hcol
    exact h.symm
  have hlen : pre.length + post.length = incoming.length := by
    conv_rhs => rw [← hsplit]
    simp
  refine ⟨?_, ?_, ?_, ?_⟩
  · rw [hc2]
    simp [hlen]
  · rw [hc1]
    simp only [List.length_map]
    omega
  · rw [hc2]
    exact List.take_left pre _
  · intro k u c u1 hu hck hu1
    have hpostk : post[k]? = some u := by
      conv at hu => rw [← hsplit]
      rwa [List.getElem?_append_right (by omega), Nat.add_sub_cancel_left] at hu
    have hck : c = (extract_controlled_update controlled_players u).1 := by
      rw [hc1] at hck
      simp only [List.getElem?_map, hpostk] at hck
      simpa using hck.symm
    have hu1k : u1 = (extract_controlled_update controlled_players u).2 := by
      rw [hc2] at hu1
      rw [List.getElem?_append_right (by omega), Nat.add_sub_cancel_left] at hu1
      simp only [List.getElem?_map, hpostk] at hu1
      simpa using hu1.symm
    rw [hck, hu1k]
    exact extract_controlled_update_spec controlled_players u

/-- C3 witness: one update past the window (frame 20, delay 10) with a
controlled walk action satisfies the extraction specification against its
processed forms. -/
theorem c3_witness :
    ControlledExtractionSpec [5]
      { frame_number := 20, spawn_actions := [],
        player_walk_actions_updates := [{ entity_net_id := 5, payload := 0 }],
        player_cast_actions_updates := [], player_look_actions_updates := [] }
      { player_walk_actions_updates := [{ entity_net_id := 5, payload := 0 }],
        player_cast_actions_updates := [] }
      { frame_number := 20, spawn_actions := [],
        player_walk_actions_updates := [],
        player_cast_actions_updates := [], player_look_actions_updates := [] } :=
  (c3_controlled_extraction 10 [5]
      [{ frame_number := 20, spawn_actions := [],
         player_walk_actions_updates := [{ entity_net_id := 5, payload := 0 }],
         player_cast_actions_updates := [], player_look_actions_updates := [] }]
      _ _ rfl).2.2.2 0 _ _ _ (by decide) (by decide) (by decide)

/-! ## C6 — stale-update fatal condition -/

/-- The extraction pass leaves the update stream's length unchanged. -/
theorem collect_snd_length (DELAY : Nat) (cps : List Nat)
    (l : List ServerWorldUpdate) :
    ((collect_controlled_player_updates DELAY cps l).2).length = l.length := by
  unfold collect_controlled_player_updates
  simp only [List.length_append, List.length_map]
  have h := congrArg List.length
    (List.takeWhile_append_dropWhile (fun u => decide (u.frame_number < DELAY)) l)
  rw [List.length_append] at h
  exact h

/-- C6: merging an absorbed, non-empty `UpdateWorld` batch (lowest frame
first) fails fatally — the `assert!` aborts the session, nothing is
silently truncated — if and only if the batch's first frame number minus
`INTERPOLATION_DELAY` (saturating) is strictly below the front frame of
the general Frame Buffer; otherwise the merge proceeds (no other fatal
condition exists on a non-empty buffer). -/
theorem c6_stale_update_fatal_iff (DELAY : Nat) (cps : List Nat)
    (oldest : Nat) (front : ReceivedServerWorldUpdate)
    (tail : List ReceivedServerWorldUpdate)
    (sa : FramedUpdates SpawnActions)
    (first : ServerWorldUpdate) (rest : List ServerWorldUpdate) :
    (apply_world_updates DELAY cps ⟨oldest, front :: tail⟩ sa (first :: rest)
        = .error .staleServerUpdate
      ↔ first.frame_number - DELAY < front.frame_number) ∧
    (∀ e, apply_world_updates DELAY cps ⟨oldest, front :: tail⟩ sa (first :: rest)
        = .error e → e = .staleServerUpdate) := by
  have hne : (collect_controlled_player_updates DELAY cps (first :: rest)).2 ≠ [] := by
    intro h
    have hl := collect_snd_length DELAY cps (first :: rest)
    rw [h] at hl
    simp at hl
  obtain ⟨f, fs, hcons⟩ := List.exists_cons_of_ne_nil hne
  by_cases hc : first.frame_number - DELAY < front.frame_number
  · constructor
    · rw [apply_world_updates]
      simp [hc]
    · intro e he
      rw [apply_world_updates] at he
      simp [hc] at he
      exact he.symm
  · constructor
    · rw [apply_world_updates]
      simp only [List.head?_cons, hc, if_neg, not_false_iff, hcons]
      simp [hc]
    · intro e he
      rw [apply_world_updates] at he
      simp only [List.head?_cons, hcons] at he
      simp [hc] at he

/-- C6 witness: a batch starting at frame 20 against a buffer whose front
frame is 0 (delay 10) is not stale: `20 - 10 = 10 < 0` is false, and the
merge proceeds without the fatal condition. -/
theorem c6_witness :
    (apply_world_updates 10 [] ⟨0, generalSlotsUpTo 0⟩
        ⟨0, spawnSlotsUpTo 0⟩ [mkSpawnUpdate 20 []] = .error .staleServerUpdate
      ↔ (20 : Nat) - 10 < 0) :=
  (c6_stale_update_fatal_iff 10 [] 0 { frame_number := 0 } []
      ⟨0, spawnSlotsUpTo 0⟩ (mkSpawnUpdate 20 []) []).1

/-! ## C5 — discarding retracted walk actions -/

/-- A successful `findIdx?` on the id-equality predicate means the id is
an element of the pending list. -/
theorem mem_of_findIdx?_id {pending : List Nat} {x i : Nat}
    (h : pending.findIdx? (fun d => d = x) = some i) : x ∈ pending := by
  obtain ⟨hlt, hp, -⟩ := List.findIdx?_eq_some_iff_getElem.1 h
  have hx : pending[i] = x := by simpa using hp
  exact hx ▸ List.getElem_mem hlt

/-- Pairs of a self-zip lie on the diagonal. -/
theorem zip_self_eq {α : Type} (l : List α) : ∀ pr ∈ l.zip l, pr.1 = pr.2 := by
  induction l with
  | nil => simp
  | cons a as ih =>
    intro pr hpr
    simp only [List.zip_cons_cons, List.mem_cons] at hpr
    rcases hpr with rfl | hpr
    · rfl
    · exact ih pr hpr

/-- Zipping commutes with reversing both lists of equal length. -/
theorem zip_reverse_of_length_eq {α β : Type} (l : List α) (m : List β)
    (h : l.length = m.length) :
    l.reverse.zip m.reverse = (l.zip m).reverse := by
  induction l generalizing m with
  | nil =>
    cases m with
    | nil => rfl
    | cons b bs => simp at h
  | cons a as ih =>
    cases m with
    | nil => simp at h
    | cons b bs =>
      have hlen : as.length = bs.length := by simpa using h
      simp only [List.reverse_cons, List.zip_cons_cons]
      rw [List.zip_append (by simp [hlen]), ih bs hlen]
      simp

/-- A self-zip has no changed pairs. -/
theorem filter_changed_zip_self (l : List PlayerActionUpdates) :
    (l.zip l).filter walkActionsChanged = [] := by
  rw [List.filter_eq_nil_iff]
  intro pr hpr
  have h := zip_self_eq l pr hpr
  simp [walkActionsChanged, h]

/-- The retain pass over one frame keeps a sublist of the actions, drops
only actions whose client action id is pending, consumes pending ids, and
reports a removal exactly when the kept list differs. -/
theorem retainWalk_spec (pending : List Nat) (acts : List WalkActionNetUpdate) :
    List.Sublist (retainWalk pending acts).1 acts ∧
    (∀ a ∈ acts, a ∈ (retainWalk pending acts).1 ∨ a.data.client_action_id ∈ pending) ∧
    List.Sublist (retainWalk pending acts).2.1 pending ∧
    ((retainWalk pending acts).2.2 = false ↔ (retainWalk pending acts).1 = acts) := by
  induction acts generalizing pending with
  | nil =>
    refine ⟨?_, ?_, ?_, ?_⟩
    · simp [retainWalk]
    · simp
    · exact List.Sublist.refl pending
    · simp [retainWalk]
  | cons a as ih =>
    cases hf : pending.findIdx? (fun d => d = a.data.client_action_id) with
    | some i =>
      obtain ⟨ih1, ih2, ih3, ih4⟩ := ih (pending.eraseIdx i)
      have hred : retainWalk pending (a :: as)
          = ((retainWalk (pending.eraseIdx i) as).1,
             (retainWalk (pending.eraseIdx i) as).2.1, true) := by
        simp [retainWalk, hf]
      rw [hred]
      refine ⟨ih1.trans (List.sublist_cons_self a as), ?_, ?_, ?_⟩
      · intro b hb
        rcases List.mem_cons.1 hb with rfl | hb
        · exact Or.inr (mem_of_findIdx?_id hf)
        · rcases ih2 b hb with h1 | h1
          · exact Or.inl h1
          · exact Or.inr ((List.eraseIdx_sublist pending i).subset h1)
      · exact ih3.trans (List.eraseIdx_sublist pending i)
      · constructor
        · intro h
          exact absurd h (by simp)
        · intro h
          exfalso
          have hle := ih1.length_le
          rw [h] at hle
          simp at hle
    | none =>
      obtain ⟨ih1, ih2, ih3, ih4⟩ := ih pending
      have hred : retainWalk pending (a :: as)
          = (a :: (retainWalk pending as).1,
             (retainWalk pending as).2.1, (retainWalk pending as).2.2) := by
        simp [retainWalk, hf]
      rw [hred]
      refine ⟨List.Sublist.cons₂ a ih1, ?_, ih3, ?_⟩
      · intro b hb
        rcases List.mem_cons.1 hb with rfl | hb
        · exact Or.inl (List.mem_cons_self _ _)
        · rcases ih2 b hb with h1 | h1
          · exact Or.inl (List.mem_cons_of_mem a h1)
          · exact Or.inr h1
      · simpa using ih4

/-- The reversed frame loop of `discard_walk_actions`: slot count is
preserved; each slot keeps a sublist of its walk actions (frames and the
other action category untouched) and drops only actions with a pending
id; the tracked oldest updated frame ends at the frame of the last
changed slot in scan order (the final overwrite), or stays at its initial
value when no removal occurred. -/
theorem discardRev_spec (rev : List PlayerActionUpdates) (pending : List Nat)
    (oldest : Nat) :
    (discardRev rev pending oldest).1.length = rev.length ∧
    (∀ pr ∈ rev.zip (discardRev rev pending oldest).1,
      pr.2.frame_number = pr.1.frame_number ∧
      pr.2.cast_action_updates = pr.1.cast_action_updates ∧
      List.Sublist pr.2.walk_action_updates pr.1.walk_action_updates ∧
      (∀ a ∈ pr.1.walk_action_updates,
        a ∈ pr.2.walk_action_updates ∨ a.data.client_action_id ∈ pending)) ∧
    (discardRev rev pending oldest).2
      = ((((rev.zip (discardRev rev pending oldest).1).filter
            walkActionsChanged).getLast?).map (fun pr => pr.1.frame_number)).getD
          oldest := by
  induction rev generalizing pending oldest with
  | nil => simp [discardRev]
  | cons u us ih =>
    obtain ⟨rs1, rs2, rs3, rs4⟩ := retainWalk_spec pending u.walk_action_updates
    by_cases hemp : (retainWalk pending u.walk_action_updates).2.1.isEmpty
    · have hred : discardRev (u :: us) pending oldest
          = ({ u with
                walk_action_updates := (retainWalk pending u.walk_action_updates).1 } :: us,
             if (retainWalk pending u.walk_action_updates).2.2 then u.frame_number
             else oldest) := by
        simp [discardRev, hemp]
      rw [hred]
      refine ⟨by simp, ?_, ?_⟩
      · intro pr hpr
        simp only [List.zip_cons_cons, List.mem_cons] at hpr
        rcases hpr with rfl | hpr
        · exact ⟨rfl, rfl, rs1, rs2⟩
        · have hd := zip_self_eq us pr hpr
          rw [← hd]
          exact ⟨rfl, rfl, List.Sublist.refl _, fun a ha => Or.inl ha⟩
      · simp only [List.zip_cons_cons, List.filter_cons, filter_changed_zip_self]
        cases hrem : (retainWalk pending u.walk_action_updates).2.2 with
        | true =>
          have hchg : walkActionsChanged
              (u, { u with
                walk_action_updates := (retainWalk pending u.walk_action_updates).1 })
              = true := by
            simp only [walkActionsChanged]
            simp only [decide_eq_true_eq]
            intro hw
            have := rs4.2 hw
            rw [hrem] at this
            simp at this
          rw [hchg]
          simp
        | false =>
          have heq : (retainWalk pending u.walk_action_updates).1
              = u.walk_action_updates := rs4.1 hrem
          have hchg : walkActionsChanged
              (u, { u with
                walk_action_updates := (retainWalk pending u.walk_action_updates).1 })
              = false := by
            simp [walkActionsChanged, heq]
          rw [hchg]
          simp
    · have hred : discardRev (u :: us) pending oldest
          = ({ u with
                walk_action_updates := (retainWalk pending u.walk_action_updates).1 }
              :: (discardRev us (retainWalk pending u.walk_action_updates).2.1
                  (if (retainWalk pending u.walk_action_updates).2.2 then u.frame_number
                   else oldest)).1,
             (discardRev us (retainWalk pending u.walk_action_updates).2.1
                  (if (retainWalk pending u.walk_action_updates).2.2 then u.frame_number
                   else oldest)).2) := by
        simp [discardRev, hemp]
      obtain ⟨ih1, ih2, ih3⟩ := ih (retainWalk pending u.walk_action_updates).2.1
        (if (retainWalk pending u.walk_action_updates).2.2 then u.frame_number else oldest)
      rw [hred]
      refine ⟨by simp [ih1], ?_, ?_⟩
      · intro pr hpr
        simp only [List.zip_cons_cons, List.mem_cons] at hpr
        rcases hpr with rfl | hpr
        · exact ⟨rfl, rfl, rs1, rs2⟩
        · obtain ⟨f1, f2, f3, f4⟩ := ih2 pr hpr
          exact ⟨f1, f2, f3, fun a ha =>
            (f4 a ha).imp id (fun hm => rs3.subset hm)⟩
      · simp only [List.zip_cons_cons, List.filter_cons]
        rcases Bool.eq_false_or_eq_true
            ((retainWalk pending u.walk_action_updates).2.2) with hrem | hrem
        · have hchg : walkActionsChanged
              (u, { u with
                walk_action_updates := (retainWalk pending u.walk_action_updates).1 })
              = true := by
            simp only [walkActionsChanged]
            simp only [decide_eq_true_eq]
            intro hw
            have := rs4.2 hw
            rw [hrem] at this
            simp at this
          rw [if_pos hrem] at ih3 ⊢
          rw [if_pos hchg]
          cases hfil : ((us.zip (discardRev us
              (retainWalk pending u.walk_action_updates).2.1 u.frame_number).1).filter
              walkActionsChanged) with
          | nil =>
            rw [hfil] at ih3
            simp only [List.getLast?_nil, Option.map_none', Option.getD_none] at ih3
            simp [ih3]
          | cons g gs =>
            rw [hfil] at ih3
            rw [List.getLast?_cons_cons]
            obtain ⟨glast, hglast⟩ : ∃ glast, (g :: gs).getLast? = some glast :=
              ⟨(g :: gs).getLast (by simp), List.getLast?_eq_getLast _ (by simp)⟩
            rw [hglast] at ih3 ⊢
            simpa using ih3
        · have heq : (retainWalk pending u.walk_action_updates).1
              = u.walk_action_updates := rs4.1 hrem
          have hchg : walkActionsChanged
              (u, { u with
                walk_action_updates := (retainWalk pending u.walk_action_updates).1 })
              = false := by
            simp [walkActionsChanged, heq]
          rw [if_neg (by simp [hrem])] at ih3 ⊢
          rw [if_neg (by simp [hchg])]
          exact ih3

/-- `findIdx?` with the equality predicate finds nothing exactly when the
value is absent. -/
theorem findIdx?_id_eq_none_iff (pending : List Nat) (x : Nat) :
    pending.findIdx? (fun d => d = x) = none ↔ x ∉ pending := by
  rw [List.findIdx?_eq_none_iff]
  constructor
  · intro h hx
    simpa using h x hx
  · intro h d hd
    simp only [decide_eq_false_iff_not]
    intro he
    exact h (he ▸ hd)

/-- Erasing at the index found by `findIdx?` with the equality predicate
is erasing the first occurrence. -/
theorem eraseIdx_findIdx?_id (pending : List Nat) (x : Nat) :
    ∀ i, pending.findIdx? (fun d => d = x) = some i →
      pending.eraseIdx i = pending.erase x := by
  induction pending with
  | nil =>
    intro i h
    simp at h
  | cons b bs ih =>
    intro i h
    by_cases hb : b = x
    · subst hb
      rw [List.findIdx?_cons, if_pos (by simp)] at h
      have h0 : i = 0 := by simpa using h.symm
      subst h0
      simp
    · rw [List.findIdx?_cons, if_neg (by simp [hb]), List.findIdx?_succ] at h
      obtain ⟨j, hj, rfl⟩ := Option.map_eq_some'.1 h
      rw [List.eraseIdx_cons_succ, List.erase_cons_tail (by simp [hb]), ih j hj]

/-- The source's stateful `retain` closure computes the same kept actions
and the same remaining pending ids as the spec-worded per-frame removal. -/
theorem retainWalk_eq_removeMatchedSpec (pending : List Nat)
    (acts : List WalkActionNetUpdate) :
    (retainWalk pending acts).1 = (removeMatchedSpec pending acts).1 ∧
    (retainWalk pending acts).2.1 = (removeMatchedSpec pending acts).2 := by
  induction acts generalizing pending with
  | nil => exact ⟨rfl, rfl⟩
  | cons a as ih =>
    by_cases hm : a.data.client_action_id ∈ pending
    · obtain ⟨i, hf⟩ : ∃ i,
          pending.findIdx? (fun d => d = a.data.client_action_id) = some i := by
        cases hf : pending.findIdx? (fun d => d = a.data.client_action_id) with
        | none => exact absurd hm ((findIdx?_id_eq_none_iff _ _).1 hf)
        | some i => exact ⟨i, rfl⟩
      have her := eraseIdx_findIdx?_id pending a.data.client_action_id i hf
      have hred : retainWalk pending (a :: as)
          = ((retainWalk (pending.eraseIdx i) as).1,
             (retainWalk (pending.eraseIdx i) as).2.1, true) := by
        simp [retainWalk, hf]
      have hspec : removeMatchedSpec pending (a :: as)
          = removeMatchedSpec (pending.erase a.data.client_action_id) as := by
        simp [removeMatchedSpec, hm]
      rw [hred, hspec, her]
      exact ⟨(ih _).1, (ih _).2⟩
    · have hf : pending.findIdx? (fun d => d = a.data.client_action_id) = none :=
        (findIdx?_id_eq_none_iff _ _).2 hm
      have hred : retainWalk pending (a :: as)
          = (a :: (retainWalk pending as).1,
             (retainWalk pending as).2.1, (retainWalk pending as).2.2) := by
        simp [retainWalk, hf]
      have hspec : removeMatchedSpec pending (a :: as)
          = (a :: (removeMatchedSpec pending as).1,
             (removeMatchedSpec pending as).2) := by
        simp [removeMatchedSpec, hm]
      rw [hred, hspec]
      exact ⟨by rw [(ih pending).1], (ih pending).2⟩

/-- The retain pass flags a removal exactly when the kept list is
shorter. -/
theorem retainWalk_flag_iff_length (pending : List Nat)
    (acts : List WalkActionNetUpdate) :
    ((retainWalk pending acts).2.2 = true ↔
      (retainWalk pending acts).1.length < acts.length) := by
  obtain ⟨rs1, -, -, rs4⟩ := retainWalk_spec pending acts
  constructor
  · intro h
    rcases Nat.lt_or_ge (retainWalk pending acts).1.length acts.length with hlt | hge
    · exact hlt
    · exfalso
      have heq : (retainWalk pending acts).1 = acts := rs1.eq_of_length_le hge
      have hfls := rs4.2 heq
      rw [hfls] at h
      exact absurd h (by simp)
  · intro h
    rcases Bool.eq_false_or_eq_true ((retainWalk pending acts).2.2) with hb | hb
    · exact hb
    · have heq := rs4.1 hb
      rw [heq] at h
      exact absurd h (Nat.lt_irrefl _)

/-- The source's reversed frame loop computes the same slots as the
spec-worded scan, and its tracked oldest frame is the scan's earliest
removal frame defaulted to the seed. -/
theorem discardRev_eq_discardScanSpec (rev : List PlayerActionUpdates) :
    ∀ (pending : List Nat) (oldest : Nat) (acc : Option Nat),
      discardRev rev pending (acc.getD oldest)
        = ((discardScanSpec rev pending acc).1,
           (discardScanSpec rev pending acc).2.getD oldest) := by
  induction rev with
  | nil =>
    intro pending oldest acc
    rfl
  | cons u us ih =>
    intro pending oldest acc
    obtain ⟨he1, he2⟩ := retainWalk_eq_removeMatchedSpec pending u.walk_action_updates
    have hlen_iff : ((retainWalk pending u.walk_action_updates).2.2 = true ↔
        (removeMatchedSpec pending u.walk_action_updates).1.length
          < u.walk_action_updates.length) := by
      rw [← he1]
      exact retainWalk_flag_iff_length pending u.walk_action_updates
    have hrem : (if (retainWalk pending u.walk_action_updates).2.2 then u.frame_number
          else acc.getD oldest)
        = (if (removeMatchedSpec pending u.walk_action_updates).1.length
              < u.walk_action_updates.length then some u.frame_number else acc).getD
            oldest := by
      rcases Bool.eq_false_or_eq_true
          ((retainWalk pending u.walk_action_updates).2.2) with hb | hb
      · rw [if_pos hb, if_pos (hlen_iff.1 hb)]
        rfl
      · have hn2 : ¬ ((removeMatchedSpec pending u.walk_action_updates).1.length
            < u.walk_action_updates.length) := by
          intro hc
          have hbt := hlen_iff.2 hc
          rw [hb] at hbt
          exact absurd hbt (by simp)
        rw [if_neg (by simp [hb]), if_neg hn2]
    by_cases hemp : (retainWalk pending u.walk_action_updates).2.1.isEmpty
    · have hemp2 : (removeMatchedSpec pending u.walk_action_updates).2.isEmpty := by
        rw [← he2]
        exact hemp
      have hL : discardRev (u :: us) pending (acc.getD oldest)
          = ({ u with
                walk_action_updates := (retainWalk pending u.walk_action_updates).1 }
              :: us,
             if (retainWalk pending u.walk_action_updates).2.2 then u.frame_number
             else acc.getD oldest) := by
        simp [discardRev, hemp]
      have hR : discardScanSpec (u :: us) pending acc
          = ({ u with
                walk_action_updates :=
                  (removeMatchedSpec pending u.walk_action_updates).1 }
              :: us,
             if (removeMatchedSpec pending u.walk_action_updates).1.length
                < u.walk_action_updates.length then some u.frame_number else acc) := by
        simp [discardScanSpec, hemp2]
      rw [hL, hR, he1, hrem]
    · have hemp2 : ¬ (removeMatchedSpec pending u.walk_action_updates).2.isEmpty := by
        rw [← he2]
        exact hemp
      have hL : discardRev (u :: us) pending (acc.getD oldest)
          = ({ u with
                walk_action_updates := (retainWalk pending u.walk_action_updates).1 }
              :: (discardRev us (retainWalk pending u.walk_action_updates).2.1
                  (if (retainWalk pending u.walk_action_updates).2.2 then u.frame_number
                   else acc.getD oldest)).1,
             (discardRev us (retainWalk pending u.walk_action_updates).2.1
                  (if (retainWalk pending u.walk_action_updates).2.2 then u.frame_number
                   else acc.getD oldest)).2) := by
        simp [discardRev, hemp]
      have hR : discardScanSpec (u :: us) pending acc
          = ({ u with
                walk_action_updates :=
                  (removeMatchedSpec pending u.walk_action_updates).1 }
              :: (discardScanSpec us (removeMatchedSpec pending u.walk_action_updates).2
                  (if (removeMatchedSpec pending u.walk_action_updates).1.length
                      < u.walk_action_updates.length then some u.frame_number
                   else acc)).1,
             (discardScanSpec us (removeMatchedSpec pending u.walk_action_updates).2
                  (if (removeMatchedSpec pending u.walk_action_updates).1.length
                      < u.walk_action_updates.length then some u.frame_number
                   else acc)).2) := by
        simp [discardScanSpec, hemp2]
      have hrec := ih (removeMatchedSpec pending u.walk_action_updates).2 oldest
        (if (removeMatchedSpec pending u.walk_action_updates).1.length
            < u.walk_action_updates.length then some u.frame_number else acc)
      rw [hL, hR, he1, he2, hrem, hrec]

/-- The source translation of `discard_walk_actions` is extensionally
equal to the spec-worded reference scan. -/
theorem discard_walk_actions_eq_spec (fu : FramedUpdates PlayerActionUpdates)
    (ids : List Nat) :
    discard_walk_actions fu ids = discard_walk_actions_spec fu ids := by
  have h := discardRev_eq_discardScanSpec fu.updates.reverse ids
    fu.oldest_updated_frame none
  simp only [Option.getD_none] at h
  simp only [discard_walk_actions, discard_walk_actions_spec]
  rw [h]

/-- C5 counterexample: discarding action id 1 from a buffer whose only
matching walk action sits at frame 7 while `oldest_updated_frame` is 3
sets `oldest_updated_frame` to 7 — a *later* frame than the current
value, contradicting "only if that frame is earlier than its current
value". -/
theorem c5_counterexample :
    (discard_walk_actions sampleWalkBuffer [1]).oldest_updated_frame = 7 ∧
    sampleWalkBuffer.oldest_updated_frame = 3 := by decide

/-- C5 (amended): `DiscardWalkActions(ids)` scans buffered frames from
most recent to oldest, removing *exactly* the walk actions whose
client-assigned action id matches a still-unmatched entry of `ids` —
each matched id consumed once (its first pending occurrence erased) —
and stopping once all ids are matched, leaving all older frames
untouched: the result equals the spec-worded reference scan
`discard_walk_actions_spec` (built from `removeMatchedSpec`, which keeps
an action iff its id is not currently pending, and `discardScanSpec`,
which breaks once the pending set empties); in addition every frame
keeps a sublist of its walk actions with frame numbers and the other
buffered action category untouched, every removed action's id is in
`ids`, and whenever any removal occurred `oldest_updated_frame` is set
to the frame of the oldest-position slot with a removal —
unconditionally, even when that frame is later than the current value —
and is left unchanged when no removal occurred. -/
theorem c5_discard_characterization (fu : FramedUpdates PlayerActionUpdates)
    (ids : List Nat) :
    discard_walk_actions fu ids = discard_walk_actions_spec fu ids ∧
    (discard_walk_actions fu ids).updates.length = fu.updates.length ∧
    (∀ pr ∈ fu.updates.zip (discard_walk_actions fu ids).updates,
      pr.2.frame_number = pr.1.frame_number ∧
      pr.2.cast_action_updates = pr.1.cast_action_updates ∧
      List.Sublist pr.2.walk_action_updates pr.1.walk_action_updates ∧
      (∀ a ∈ pr.1.walk_action_updates,
        a ∈ pr.2.walk_action_updates ∨ a.data.client_action_id ∈ ids)) ∧
    (discard_walk_actions fu ids).oldest_updated_frame
      = ((((fu.updates.zip (discard_walk_actions fu ids).updates).filter
            walkActionsChanged).head?).map (fun pr => pr.1.frame_number)).getD
          fu.oldest_updated_frame := by
  obtain ⟨d1, d2, d3⟩ := discardRev_spec fu.updates.reverse ids fu.oldest_updated_frame
  have hres : discard_walk_actions fu ids
      = ⟨(discardRev fu.updates.reverse ids fu.oldest_updated_frame).2,
         (discardRev fu.updates.reverse ids fu.oldest_updated_frame).1.reverse⟩ := rfl
  have hlen2 : fu.updates.reverse.length
      = (discardRev fu.updates.reverse ids fu.oldest_updated_frame).1.length := d1.symm
  have hzip : fu.updates.zip
        (discardRev fu.updates.reverse ids fu.oldest_updated_frame).1.reverse
      = (fu.updates.reverse.zip
          (discardRev fu.updates.reverse ids fu.oldest_updated_frame).1).reverse := by
    have h := zip_reverse_of_length_eq fu.updates.reverse
      (discardRev fu.updates.reverse ids fu.oldest_updated_frame).1 hlen2
    simpa using h
  refine ⟨discard_walk_actions_eq_spec fu ids, ?_, ?_, ?_⟩
  · rw [hres]
    simpa using d1
  · rw [hres]
    simp only
    rw [hzip]
    intro pr hpr
    exact d2 pr (List.mem_reverse.1 hpr)
  · rw [hres]
    simp only
    rw [hzip, List.filter_reverse, List.head?_reverse]
    exact d3

/-- C5 witness: the oldest-updated-frame equation evaluated on the sample
buffer with discarded id 1 (the removal at frame 7 is the only change). -/
theorem c5_witness :
    (discard_walk_actions sampleWalkBuffer [1]).oldest_updated_frame
      = ((((sampleWalkBuffer.updates.zip
            (discard_walk_actions sampleWalkBuffer [1]).updates).filter
            walkActionsChanged).head?).map (fun pr => pr.1.frame_number)).getD
          sampleWalkBuffer.oldest_updated_frame :=
  (c5_discard_characterization sampleWalkBuffer [1]).2.2.2

/-! ## Sorting and reserving lemmas for the `UpdateWorld` handler -/

theorem mem_insertByFrame {u b : ServerWorldUpdate} {l : List ServerWorldUpdate} :
    b ∈ insertByFrame u l ↔ b = u ∨ b ∈ l := by
  induction l with
  | nil => simp [insertByFrame]
  | cons v vs ih =>
    by_cases hv : v.frame_number < u.frame_number
    · simp only [insertByFrame, if_pos hv, List.mem_cons, ih]
      tauto
    · simp only [insertByFrame, if_neg hv, List.mem_cons]

theorem insertByFrame_pairwise (u : ServerWorldUpdate) (l : List ServerWorldUpdate)
    (h : List.Pairwise (fun a b => a.frame_number ≤ b.frame_number) l) :
    List.Pairwise (fun a b => a.frame_number ≤ b.frame_number) (insertByFrame u l) := by
  induction l with
  | nil => simp [insertByFrame]
  | cons v vs ih =>
    rw [List.pairwise_cons] at h
    by_cases hv : v.frame_number < u.frame_number
    · simp only [insertByFrame, if_pos hv]
      rw [List.pairwise_cons]
      refine ⟨?_, ih h.2⟩
      intro b hb
      rcases mem_insertByFrame.1 hb with rfl | hb
      · exact Nat.le_of_lt hv
      · exact h.1 b hb
    · simp only [insertByFrame, if_neg hv]
      rw [List.pairwise_cons]
      refine ⟨?_, List.pairwise_cons.2 h⟩
      intro b hb
      rcases List.mem_cons.1 hb with rfl | hb
      · exact Nat.le_of_not_lt hv
      · exact Nat.le_trans (Nat.le_of_not_lt hv) (h.1 b hb)

theorem sortUpdatesByFrame_pairwise (l : List ServerWorldUpdate) :
    List.Pairwise (fun a b => a.frame_number ≤ b.frame_number)
      (sortUpdatesByFrame l) := by
  induction l with
  | nil => simp [sortUpdatesByFrame]
  | cons u us ih => exact insertByFrame_pairwise u _ ih

theorem maxFrame_insertByFrame (u : ServerWorldUpdate) (l : List ServerWorldUpdate) :
    maxFrame (insertByFrame u l) = max u.frame_number (maxFrame l) := by
  induction l with
  | nil => rfl
  | cons v vs ih =>
    by_cases hv : v.frame_number < u.frame_number
    · simp only [insertByFrame, if_pos hv, maxFrame, List.foldr_cons]
      simp only [maxFrame] at ih
      rw [ih]
      omega
    · simp only [insertByFrame, if_neg hv, maxFrame, List.foldr_cons]

theorem maxFrame_sortUpdatesByFrame (l : List ServerWorldUpdate) :
    maxFrame (sortUpdatesByFrame l) = maxFrame l := by
  induction l with
  | nil => rfl
  | cons u us ih =>
    simp only [sortUpdatesByFrame, maxFrame_insertByFrame, ih]
    rfl

theorem lastFrame_eq_maxFrame_of_sorted (l : List ServerWorldUpdate)
    (h : List.Pairwise (fun a b => a.frame_number ≤ b.frame_number) l) :
    ((l.getLast?).map (fun u => u.frame_number)).getD 0 = maxFrame l := by
  induction l with
  | nil => rfl
  | cons a as ih =>
    rw [List.pairwise_cons] at h
    cases as with
    | nil => simp [maxFrame]
    | cons b bs =>
      rw [List.getLast?_cons_cons]
      rw [ih h.2]
      have hab : a.frame_number ≤ b.frame_number := h.1 b (List.mem_cons_self _ _)
      have hb : b.frame_number ≤ maxFrame (b :: bs) := by
        simp only [maxFrame, List.foldr_cons]
        omega
      simp only [maxFrame, List.foldr_cons]
      simp only [maxFrame] at hb ⊢
      omega

/-- The frame of the last element of the sorted batch is the maximum frame
occurring in the batch. -/
theorem sorted_lastFrame_eq_maxFrame (l : List ServerWorldUpdate) :
    (((sortUpdatesByFrame l).getLast?).map (fun u => u.frame_number)).getD 0
      = maxFrame l := by
  rw [lastFrame_eq_maxFrame_of_sorted _ (sortUpdatesByFrame_pairwise l),
    maxFrame_sortUpdatesByFrame]

/-- The next appended slot frame computed from the buffer's back. -/
theorem next_frame_of_getLast?_some [Framed T] (fu : FramedUpdates T) (f : Nat)
    (h : (fu.updates.map Framed.frame_number).getLast? = some f) :
    fu.next_frame = f + 1 := by
  unfold FramedUpdates.next_frame
  rw [h]

theorem next_frame_of_getLast?_none [Framed T] (fu : FramedUpdates T)
    (h : (fu.updates.map Framed.frame_number).getLast? = none) :
    fu.next_frame = 0 := by
  unfold FramedUpdates.next_frame
  rw [h]

/-- Reserving covers the requested frame: afterwards the buffer's back
frame is at least the requested one. -/
theorem reserve_updates_latest [Framed T] (fu : FramedUpdates T) (frame : Nat) :
    frame ≤ (fu.reserve_updates frame).latest_frame := by
  have hmap : (List.range' fu.next_frame (frame + 1 - fu.next_frame)).map
      (fun n => Framed.frame_number (T := T) (Framed.new_update n))
      = List.range' fu.next_frame (frame + 1 - fu.next_frame) := by
    rw [List.map_congr_left (fun n _ => Framed.frame_number_new n)]
    simp
  unfold FramedUpdates.reserve_updates FramedUpdates.latest_frame
  simp only [List.map_append, List.map_map, Function.comp_def, hmap]
  cases hn : frame + 1 - fu.next_frame with
  | zero =>
    simp only [List.range'_zero, List.append_nil]
    cases hl : (fu.updates.map Framed.frame_number).getLast? with
    | none =>
      have := next_frame_of_getLast?_none fu hl
      omega
    | some f =>
      have := next_frame_of_getLast?_some fu f hl
      simp only [Option.getD_some]
      omega
  | succ m =>
    have hne : List.range' fu.next_frame (m + 1) ≠ [] := by simp
    rw [List.getLast?_append_of_ne_nil _ hne, List.range'_concat,
      List.getLast?_concat]
    simp only [Option.getD_some]
    omega

/-! ## Frame preservation of the merge write loops -/

theorem writeSpawnSlots_map_frame (slots : List SpawnActions)
    (ins : List ServerWorldUpdate) :
    (writeSpawnSlots slots ins).map (fun s => s.frame_number)
      = slots.map (fun s => s.frame_number) := by
  induction slots generalizing ins with
  | nil => cases ins <;> rfl
  | cons s ss ih =>
    cases ins with
    | nil => rfl
    | cons u us => simp [writeSpawnSlots, ih]

theorem writeGeneralSlots_map_frame (os : Nat)
    (slots : List ReceivedServerWorldUpdate)
    (cps : List ReceivedPlayerUpdate) (ins : List ServerWorldUpdate) :
    (writeGeneralSlots os slots cps ins).map (fun s => s.frame_number)
      = slots.map (fun s => s.frame_number) := by
  induction slots generalizing cps ins with
  | nil => rfl
  | cons s ss ih =>
    by_cases hf : s.frame_number ≥ os
    · cases ins with
      | nil =>
        cases cps <;> simp [writeGeneralSlots, hf]
      | cons u us =>
        cases cps <;>
          simp [writeGeneralSlots, hf, ih,
            ReceivedServerWorldUpdate.apply_server_update]
    · cases cps <;> simp [writeGeneralSlots, hf, ih]

/-- Inversion of a successful merge of a non-empty batch: the head of the
extracted stream exists and the two buffers are exactly the prefix below
the respective start frame followed by the written suffix. -/
theorem apply_world_updates_cons_ok (DELAY : Nat) (cps : List Nat)
    (fu : FramedUpdates ReceivedServerWorldUpdate) (sa : FramedUpdates SpawnActions)
    (first : ServerWorldUpdate) (rest : List ServerWorldUpdate)
    (fu1 : FramedUpdates ReceivedServerWorldUpdate) (sa1 : FramedUpdates SpawnActions)
    (h : apply_world_updates DELAY cps fu sa (first :: rest) = .ok (fu1, sa1)) :
    ∃ f, (collect_controlled_player_updates DELAY cps (first :: rest)).2.head? = some f ∧
      sa1 = ⟨f.frame_number,
        sa.updates.takeWhile (fun s => s.frame_number < f.frame_number) ++
          writeSpawnSlots
            (sa.updates.dropWhile (fun s => s.frame_number < f.frame_number))
            (collect_controlled_player_updates DELAY cps (first :: rest)).2⟩ ∧
      fu1 = ⟨f.frame_number - DELAY,
        fu.updates.takeWhile (fun s => s.frame_number < f.frame_number - DELAY) ++
          writeGeneralSlots f.frame_number
            (fu.updates.dropWhile (fun s => s.frame_number < f.frame_number - DELAY))
            (collect_controlled_player_updates DELAY cps (first :: rest)).1
            (collect_controlled_player_updates DELAY cps (first :: rest)).2⟩ := by
  simp only [apply_world_updates] at h
  cases hh : fu.updates.head? with
  | none => simp only [hh] at h; exact absurd h (by simp)
  | some front =>
    simp only [hh] at h
    by_cases hc : first.frame_number - DELAY < front.frame_number
    · rw [if_pos hc] at h; simp at h
    · rw [if_neg hc] at h
      cases hch : (collect_controlled_player_updates DELAY cps (first :: rest)).2.head? with
      | none => simp only [hch] at h; exact absurd h (by simp)
      | some f =>
        simp only [hch, Except.ok.injEq, Prod.mk.injEq] at h
        exact ⟨f, rfl, h.2.symm, h.1.symm⟩

/-- A successful merge never changes the slot frames of either buffer. -/
theorem apply_world_updates_map_frame (DELAY : Nat) (cps : List Nat)
    (fu : FramedUpdates ReceivedServerWorldUpdate) (sa : FramedUpdates SpawnActions)
    (incoming : List ServerWorldUpdate)
    (fu1 : FramedUpdates ReceivedServerWorldUpdate) (sa1 : FramedUpdates SpawnActions)
    (h : apply_world_updates DELAY cps fu sa incoming = .ok (fu1, sa1)) :
    fu1.updates.map (fun s => s.frame_number) = fu.updates.map (fun s => s.frame_number) ∧
    sa1.updates.map (fun s => s.frame_number) = sa.updates.map (fun s => s.frame_number) := by
  cases incoming with
  | nil =>
    unfold apply_world_updates at h
    simp only [Except.ok.injEq, Prod.mk.injEq] at h
    rw [← h.1, ← h.2]
    exact ⟨rfl, rfl⟩
  | cons first rest =>
    obtain ⟨f, hf, hsa, hfu⟩ :=
      apply_world_updates_cons_ok DELAY cps fu sa first rest fu1 sa1 h
    constructor
    · rw [hfu]
      simp only [List.map_append, writeGeneralSlots_map_frame]
      rw [← List.map_append, List.takeWhile_append_dropWhile]
    · rw [hsa]
      simp only [List.map_append, writeSpawnSlots_map_frame]
      rw [← List.map_append, List.takeWhile_append_dropWhile]

/-! ## `UpdateWorld` handler lemmas -/

/-- A repeated or stale id is a no-op for state, though the client still
acknowledges it. -/
theorem handle_update_world_not_absorbed (env : Env) (st : ClientState) (id : Nat)
    (updates : List ServerWorldUpdate) (h : ¬ st.ack.id < id) :
    handle_update_world env st id updates
      = ([(.unreliable, .AcknowledgeWorldUpdate id)], .ok st) := by
  unfold handle_update_world
  rw [if_neg h]

/-- The handler sends exactly one unreliable acknowledgement, whatever the
dedup and merge outcome. -/
theorem handle_update_world_fst (env : Env) (st : ClientState) (id : Nat)
    (updates : List ServerWorldUpdate) :
    (handle_update_world env st id updates).1
      = [(.unreliable, .AcknowledgeWorldUpdate id)] := by
  by_cases hlt : st.ack.id < id
  · simp only [handle_update_world, if_pos hlt]
    split <;> rfl
  · rw [handle_update_world_not_absorbed env st id updates hlt]

/-- Inversion of a successful absorption: the acknowledgement is sent, the
cursor advances to `id` and to the maximum batch frame, everything except
cursor and the two world buffers is untouched, and the buffers come from a
successful merge into the reserved buffers. -/
theorem handle_update_world_absorbed_ok (env : Env) (st : ClientState) (id : Nat)
    (updates : List ServerWorldUpdate) (msgs : List Sent) (st1 : ClientState)
    (hlt : st.ack.id < id)
    (h : handle_update_world env st id updates = (msgs, .ok st1)) :
    msgs = [(.unreliable, .AcknowledgeWorldUpdate id)] ∧
    st1.conn = st.conn ∧ st1.game = st.game ∧ st1.room = st.room ∧
    st1.new_engine_state = st.new_engine_state ∧
    st1.player_actions_updates = st.player_actions_updates ∧
    st1.ack.id = id ∧
    st1.ack.frame_number = max st.ack.frame_number (maxFrame updates) ∧
    apply_world_updates env.delay [st.room.player_net_id]
      (st.framed_updates.reserve_updates (max st1.ack.frame_number env.game_frame))
      (st.spawn_actions.reserve_updates (max st1.ack.frame_number env.game_frame))
      (sortUpdatesByFrame updates) = .ok (st1.framed_updates, st1.spawn_actions) := by
  simp only [handle_update_world, if_pos hlt] at h
  split at h
  · simp at h
  · next r heq =>
    simp only [Prod.mk.injEq, Except.ok.injEq] at h
    obtain ⟨hm, hs⟩ := h
    subst hs
    refine ⟨hm.symm, rfl, rfl, rfl, rfl, rfl, rfl, ?_, ?_⟩
    · simp only
      rw [sorted_lastFrame_eq_maxFrame]
    · simp only
      rw [sorted_lastFrame_eq_maxFrame] at heq ⊢
      exact heq

/-- A message with the connection's session id whose payload is not a
lobby payload while playing reaches its handler even with further
hypotheses unavailable; a mismatching session id is dropped with no state
change and no send. -/
theorem process_event_mismatch (env : Env) (st : ClientState) (m : ServerMessage)
    (h : m.session_id ≠ st.conn.session_id) :
    process_event env st (.Message m) = ([], .ok st) := by
  unfold process_event
  cases hd : st.conn.disconnected && ignoredWhenDisconnected (.Message m) with
  | true => simp
  | false => simp [h]

/-- With the connection marked disconnected, any event the first filter
ignores is dropped with no state change and no send. -/
theorem process_event_disconnected_skip (env : Env) (st : ClientState)
    (ev : NetEvent) (hd : st.conn.disconnected = true)
    (hig : ignoredWhenDisconnected ev = true) :
    process_event env st ev = ([], .ok st) := by
  unfold process_event
  simp [hd, hig]

/-! ## C1 — `UpdateWorld` acknowledgement and absorption -/

/-- C1: for an `UpdateWorld{id, updates}` message that passes the dispatch
filters (session id matches, connection not marked disconnected; the
gameplay-phase filter never drops `UpdateWorld`), an unreliable
`AcknowledgeWorldUpdate(id)` is always sent — and it is the only send;
the state changes only if `id > last_ack_id` (otherwise the state is
returned untouched); and on a survived absorption `last_ack_id` becomes
`id`, `last_ack_frame` becomes `max(previous last_ack_frame, maximum
frame_number in the batch)`, and both world Frame Buffers have been
reserved up to at least `max(last_ack_frame, current simulated frame)`. -/
theorem c1_update_world_ack_and_absorb (env : Env) (st : ClientState)
    (id : Nat) (updates : List ServerWorldUpdate)
    (hd : st.conn.disconnected = false) :
    (process_event env st (messageEvent st.conn.session_id (.UpdateWorld id updates))).1
      = [(.unreliable, .AcknowledgeWorldUpdate id)] ∧
    (id ≤ st.ack.id →
      process_event env st (messageEvent st.conn.session_id (.UpdateWorld id updates))
        = ([(.unreliable, .AcknowledgeWorldUpdate id)], .ok st)) ∧
    (∀ st1, st.ack.id < id →
      (process_event env st (messageEvent st.conn.session_id (.UpdateWorld id updates))).2
        = .ok st1 →
      st1.ack.id = id ∧
      st1.ack.frame_number = max st.ack.frame_number (maxFrame updates) ∧
      max st1.ack.frame_number env.game_frame ≤ st1.framed_updates.latest_frame ∧
      max st1.ack.frame_number env.game_frame ≤ st1.spawn_actions.latest_frame) := by
  have hdis := process_event_dispatch env st (.UpdateWorld id updates) hd
    (by simp [isLobbyPayload])
  rw [hdis]
  have hdp : dispatch_payload env st (.UpdateWorld id updates)
      = handle_update_world env st id updates := rfl
  rw [hdp]
  refine ⟨handle_update_world_fst env st id updates, ?_, ?_⟩
  · intro hle
    exact handle_update_world_not_absorbed env st id updates (by omega)
  · intro st1 hlt h2
    have hpair : handle_update_world env st id updates
        = ((handle_update_world env st id updates).1, .ok st1) :=
      Prod.ext_iff.2 ⟨rfl, h2⟩
    obtain ⟨-, -, -, -, -, -, hid, hfr, happ⟩ :=
      handle_update_world_absorbed_ok env st id updates _ st1 hlt hpair
    obtain ⟨hmf, hms⟩ := apply_world_updates_map_frame _ _ _ _ _ _ _ happ
    refine ⟨hid, hfr, ?_, ?_⟩
    · have hlat : st1.framed_updates.latest_frame
          = (st.framed_updates.reserve_updates
              (max st1.ack.frame_number env.game_frame)).latest_frame := by
        unfold FramedUpdates.latest_frame
        rw [show (List.map (Framed.frame_number) st1.framed_updates.updates)
            = List.map (fun s => s.frame_number) st1.framed_updates.updates from rfl,
          hmf]
        rfl
      rw [hlat]
      exact reserve_updates_latest _ _
    · have hlat : st1.spawn_actions.latest_frame
          = (st.spawn_actions.reserve_updates
              (max st1.ack.frame_number env.game_frame)).latest_frame := by
        unfold FramedUpdates.latest_frame
        rw [show (List.map (Framed.frame_number) st1.spawn_actions.updates)
            = List.map (fun s => s.frame_number) st1.spawn_actions.updates from rfl,
          hms]
        rfl
      rw [hlat]
      exact reserve_updates_latest _ _

/-- C1 witness: the spec's own scenario (`last_ack_id = 4`,
`UpdateWorld{id=5, frames=[20,21,22]}`) — after absorption the cursor sits
at id 5, frame 22, and both buffers reach at least frame 25 (the current
simulated frame). -/
theorem c1_witness :
    sampleStateAfter.ack.id = 5 ∧
    sampleStateAfter.ack.frame_number
      = max sampleState.ack.frame_number
          (maxFrame [mkSpawnUpdate 20 [], mkSpawnUpdate 21 [], mkSpawnUpdate 22 []]) ∧
    max sampleStateAfter.ack.frame_number sampleEnv.game_frame
      ≤ sampleStateAfter.framed_updates.latest_frame ∧
    max sampleStateAfter.ack.frame_number sampleEnv.game_frame
      ≤ sampleStateAfter.spawn_actions.latest_frame :=
  (c1_update_world_ack_and_absorb sampleEnv sampleState 5
      [mkSpawnUpdate 20 [], mkSpawnUpdate 21 [], mkSpawnUpdate 22 []] rfl).2.2
    sampleStateAfter (by decide) (by rfl)

/-! ## C2 — idempotence and ack-cursor monotonicity -/

/-- The `UpdateWorld` event is never ignored by the gameplay-phase filter
and, when the filters pass, the cursor after the event is the maximum of
its old value and the received id; the connection record is untouched. -/
theorem process_event_update_world_pass (env : Env) (st : ClientState)
    (id : Nat) (updates : List ServerWorldUpdate)
    (hd : st.conn.disconnected = false) (stm : ClientState)
    (h : (process_event env st
        (messageEvent st.conn.session_id (.UpdateWorld id updates))).2 = .ok stm) :
    stm.conn = st.conn ∧ stm.game.is_playing = st.game.is_playing ∧
    stm.ack.id = max st.ack.id id := by
  have hdis := process_event_dispatch env st (.UpdateWorld id updates) hd
    (by simp [isLobbyPayload])
  rw [hdis] at h
  have hdp : dispatch_payload env st (.UpdateWorld id updates)
      = handle_update_world env st id updates := rfl
  rw [hdp] at h
  by_cases hlt : st.ack.id < id
  · have hpair : handle_update_world env st id updates
        = ((handle_update_world env st id updates).1, .ok stm) :=
      Prod.ext_iff.2 ⟨rfl, h⟩
    obtain ⟨-, hc, hg, -, -, -, hid, -, -⟩ :=
      handle_update_world_absorbed_ok env st id updates _ stm hlt hpair
    refine ⟨hc, by rw [hg], ?_⟩
    rw [hid]
    omega
  · rw [handle_update_world_not_absorbed env st id updates hlt] at h
    simp only [Except.ok.injEq] at h
    subst h
    refine ⟨rfl, rfl, ?_⟩
    omega

/-- Folding the handler over a sequence of received `UpdateWorld`
messages: the ack id never decreases and ends at the running maximum. -/
theorem process_update_world_seq_ack (env : Env)
    (seq : List (Nat × List ServerWorldUpdate)) :
    ∀ (st st1 : ClientState), st.conn.disconnected = false →
      process_update_world_seq env st seq = .ok st1 →
      st.ack.id ≤ st1.ack.id ∧
      st1.ack.id = seq.foldl (fun acc p => max acc p.1) st.ack.id := by
  induction seq with
  | nil =>
    intro st st1 hd h
    simp only [process_update_world_seq, Except.ok.injEq] at h
    subst h
    exact ⟨Nat.le_refl _, rfl⟩
  | cons p rest ih =>
    intro st st1 hd h
    obtain ⟨id, updates⟩ := p
    simp only [process_update_world_seq] at h
    cases hpe : (process_event env st
        (messageEvent st.conn.session_id (.UpdateWorld id updates))).2 with
    | error e =>
      rw [hpe] at h
      exact absurd h (by simp)
    | ok stm =>
      rw [hpe] at h
      obtain ⟨hc, -, hack⟩ :=
        process_event_update_world_pass env st id updates hd stm hpe
      have hd1 : stm.conn.disconnected = false := by rw [hc]; exact hd
      obtain ⟨hle, hfold⟩ := ih stm st1 hd1 h
      constructor
      · omega
      · rw [List.foldl_cons, ← hack]
        exact hfold

/-- Numeric helper: a left fold of `max` equals `max` of the seed and the
fold from zero over the ids. -/
theorem foldl_max_eq (seq : List (Nat × List ServerWorldUpdate)) :
    ∀ a : Nat, seq.foldl (fun acc p => max acc p.1) a
      = max a ((seq.map Prod.fst).foldr max 0) := by
  induction seq with
  | nil => intro a; simp
  | cons p ps ih =>
    intro a
    rw [List.foldl_cons, ih, List.map_cons, List.foldr_cons]
    omega

/-- C2: processing the same `UpdateWorld` message twice in a row leaves
the entire state — in particular the frame buffers — exactly as after
processing it once (the second pass only re-sends the acknowledgement);
and over any sequence of received `UpdateWorld` messages, `last_ack_id`
never decreases and, starting from a reset cursor, ends at the maximum id
ever received. -/
theorem c2_update_world_idempotent_monotone :
    (∀ (env : Env) (st : ClientState) (sid id : Nat)
        (updates : List ServerWorldUpdate) (msgs : List Sent) (st1 : ClientState),
      process_event env st (messageEvent sid (.UpdateWorld id updates))
          = (msgs, .ok st1) →
      (process_event env st1 (messageEvent sid (.UpdateWorld id updates))).2
          = .ok st1) ∧
    (∀ (env : Env) (seq : List (Nat × List ServerWorldUpdate))
        (st st1 : ClientState), st.conn.disconnected = false →
      process_update_world_seq env st seq = .ok st1 →
      st.ack.id ≤ st1.ack.id ∧
      (st.ack.id = 0 → st1.ack.id = (seq.map Prod.fst).foldr max 0)) := by
  constructor
  · intro env st sid id updates msgs st1 h
    cases hdd : st.conn.disconnected with
    | true =>
      have hskip : process_event env st
          (messageEvent sid (.UpdateWorld id updates)) = ([], .ok st) :=
        process_event_disconnected_skip env st _ hdd (by rfl)
      rw [hskip] at h
      simp only [Prod.mk.injEq, Except.ok.injEq] at h
      obtain ⟨-, h2⟩ := h
      subst h2
      rw [hskip]
    | false =>
      by_cases hsid : sid = st.conn.session_id
      · subst hsid
        have hdis := process_event_dispatch env st (.UpdateWorld id updates) hdd
          (by simp [isLobbyPayload])
        rw [hdis] at h
        have hdp : dispatch_payload env st (.UpdateWorld id updates)
            = handle_update_world env st id updates := rfl
        rw [hdp] at h
        by_cases hlt : st.ack.id < id
        · obtain ⟨-, hc, hg, -, -, -, hid, -, -⟩ :=
            handle_update_world_absorbed_ok env st id updates msgs st1 hlt h
          have hd1 : st1.conn.disconnected = false := by rw [hc]; exact hdd
          have hsid1 : st.conn.session_id = st1.conn.session_id := by rw [hc]
          rw [hsid1]
          have hdis1 := process_event_dispatch env st1 (.UpdateWorld id updates) hd1
            (by simp [isLobbyPayload])
          rw [hdis1]
          have hdp1 : dispatch_payload env st1 (.UpdateWorld id updates)
              = handle_update_world env st1 id updates := rfl
          rw [hdp1]
          rw [handle_update_world_not_absorbed env st1 id updates (by omega)]
        · rw [handle_update_world_not_absorbed env st id updates hlt] at h
          simp only [Prod.mk.injEq, Except.ok.injEq] at h
          obtain ⟨-, h2⟩ := h
          subst h2
          rw [hdis, hdp,
            handle_update_world_not_absorbed env st id updates hlt]
      · have hskip : process_event env st
            (messageEvent sid (.UpdateWorld id updates)) = ([], .ok st) :=
          process_event_mismatch env st
            { session_id := sid, payload := .UpdateWorld id updates } hsid
        rw [hskip] at h
        simp only [Prod.mk.injEq, Except.ok.injEq] at h
        obtain ⟨-, h2⟩ := h
        subst h2
        rw [hskip]
  · intro env seq st st1 hd h
    obtain ⟨hle, hfold⟩ := process_update_world_seq_ack env seq st st1 hd h
    refine ⟨hle, ?_⟩
    intro h0
    rw [hfold, foldl_max_eq, h0]
    omega

/-- C2 witness: re-processing the sample `UpdateWorld{id=5}` message
against the state that already absorbed it leaves that state unchanged. -/
theorem c2_witness :
    (process_event sampleEnv sampleStateAfter
        (messageEvent 0 (.UpdateWorld 5
          [mkSpawnUpdate 20 [], mkSpawnUpdate 21 [], mkSpawnUpdate 22 []]))).2
      = .ok sampleStateAfter :=
  c2_update_world_idempotent_monotone.1 sampleEnv sampleState 0 5
    [mkSpawnUpdate 20 [], mkSpawnUpdate 21 [], mkSpawnUpdate 22 []]
    [(.unreliable, .AcknowledgeWorldUpdate 5)] sampleStateAfter (by rfl)

/-! ## C4 — spawn-action writes -/

/-- The extraction pass preserves every update's frame number, in order. -/
theorem collect_snd_map_frame (DELAY : Nat) (cps : List Nat)
    (l : List ServerWorldUpdate) :
    ((collect_controlled_player_updates DELAY cps l).2).map (fun u => u.frame_number)
      = l.map (fun u => u.frame_number) := by
  unfold collect_controlled_player_updates
  simp only [List.map_append, List.map_map]
  have h1 : ((l.dropWhile (fun u => decide (u.frame_number < DELAY))).map
      ((fun u => u.frame_number) ∘ Prod.snd ∘ extract_controlled_update cps))
      = (l.dropWhile (fun u => decide (u.frame_number < DELAY))).map
          (fun u => u.frame_number) :=
    List.map_congr_left (fun u _ => rfl)
  rw [h1, ← List.map_append, List.takeWhile_append_dropWhile]

/-- The extraction pass preserves every update's spawn actions, in order. -/
theorem collect_snd_map_spawn (DELAY : Nat) (cps : List Nat)
    (l : List ServerWorldUpdate) :
    ((collect_controlled_player_updates DELAY cps l).2).map (fun u => u.spawn_actions)
      = l.map (fun u => u.spawn_actions) := by
  unfold collect_controlled_player_updates
  simp only [List.map_append, List.map_map]
  have h1 : ((l.dropWhile (fun u => decide (u.frame_number < DELAY))).map
      ((fun u => u.spawn_actions) ∘ Prod.snd ∘ extract_controlled_update cps))
      = (l.dropWhile (fun u => decide (u.frame_number < DELAY))).map
          (fun u => u.spawn_actions) :=
    List.map_congr_left (fun u _ => rfl)
  rw [h1, ← List.map_append, List.takeWhile_append_dropWhile]

/-- The head of the extracted stream keeps the batch's first frame. -/
theorem collect_head_frame (DELAY : Nat) (cps : List Nat)
    (first : ServerWorldUpdate) (rest : List ServerWorldUpdate)
    (f : ServerWorldUpdate)
    (h : (collect_controlled_player_updates DELAY cps (first :: rest)).2.head?
      = some f) :
    f.frame_number = first.frame_number := by
  have hm := collect_snd_map_frame DELAY cps (first :: rest)
  have hh := congrArg List.head? hm
  rw [List.head?_map, List.head?_map, h] at hh
  simpa using hh

/-- Elementwise spawn-action preservation of the extraction pass. -/
theorem collect_snd_spawn_getElem (DELAY : Nat) (cps : List Nat)
    (l : List ServerWorldUpdate) (k : Nat) :
    (((collect_controlled_player_updates DELAY cps l).2)[k]?).map
        (fun u => u.spawn_actions)
      = (l[k]?).map (fun u => u.spawn_actions) := by
  have hm := collect_snd_map_spawn DELAY cps l
  have hh := congrArg (fun t => t[k]?) hm
  simpa [List.getElem?_map] using hh

theorem writeSpawnSlots_length (slots : List SpawnActions)
    (ins : List ServerWorldUpdate) :
    (writeSpawnSlots slots ins).length = slots.length := by
  have h := congrArg List.length (writeSpawnSlots_map_frame slots ins)
  simpa using h

/-- A zipped slot takes the paired update's spawn actions. -/
theorem writeSpawnSlots_getElem?_written (slots : List SpawnActions)
    (ins : List ServerWorldUpdate) (k : Nat) (hk : k < ins.length) :
    (writeSpawnSlots slots ins)[k]?
      = (slots[k]?).map (fun s => { s with spawn_actions := ins[k].spawn_actions }) := by
  induction slots generalizing ins k with
  | nil =>
    cases ins with
    | nil => simp at hk
    | cons u us => simp [writeSpawnSlots]
  | cons s ss ih =>
    cases ins with
    | nil => simp at hk
    | cons u us =>
      cases k with
      | zero => simp [writeSpawnSlots]
      | succ k =>
        simp only [writeSpawnSlots, List.getElem?_cons_succ, List.getElem_cons_succ]
        exact ih us k (by simpa using hk)

/-- Slots past the batch are untouched by the zipped write. -/
theorem writeSpawnSlots_getElem?_untouched (slots : List SpawnActions)
    (ins : List ServerWorldUpdate) (k : Nat) (hk : ins.length ≤ k) :
    (writeSpawnSlots slots ins)[k]? = slots[k]? := by
  induction slots generalizing ins k with
  | nil => cases ins <;> rfl
  | cons s ss ih =>
    cases ins with
    | nil => rfl
    | cons u us =>
      cases k with
      | zero => simp at hk
      | succ k =>
        simp only [writeSpawnSlots, List.getElem?_cons_succ]
        exact ih us k (by simpa using hk)

/-- Length of the prefix of a strictly increasing consecutive frame range
below a threshold. -/
theorem length_takeWhile_range'_lt (f0 len t : Nat) :
    ((List.range' f0 len).takeWhile (fun x => x < t)).length = min len (t - f0) := by
  induction len generalizing f0 with
  | zero => simp
  | succ n ih =>
    rw [List.range'_succ]
    by_cases h : f0 < t
    · simp only [List.takeWhile_cons]
      rw [if_pos (by simpa using h)]
      simp only [List.length_cons, ih (f0 + 1)]
      omega
    · simp only [List.takeWhile_cons]
      rw [if_neg (by simpa using h)]
      simp only [List.length_nil]
      omega

/-- Length of a frame-window prefix when the slot frames are the
consecutive range starting at `f0`. -/
theorem takeWhile_length_of_map_range' (slots : List SpawnActions)
    (f0 len t : Nat)
    (h : slots.map (fun s => s.frame_number) = List.range' f0 len) :
    (slots.takeWhile (fun s => s.frame_number < t)).length = min len (t - f0) := by
  have h1 : ((slots.map (fun s => s.frame_number)).takeWhile
      (fun x => decide (x < t))).length
      = (slots.takeWhile (fun s => decide (s.frame_number < t))).length := by
    rw [List.takeWhile_map]
    simp [Function.comp_def]
  rw [h] at h1
  rw [← h1, length_takeWhile_range'_lt]

/-- C4 counterexample: an absorbed batch with a frame gap (frames 12 and
14, delay 10) writes the frame-14 update's spawn actions into the slot
with frame 13, one slot per update consecutively from the batch's first
frame — not into the slot whose frame number equals the update's own
frame number (slot 14 stays empty). -/
theorem c4_counterexample :
    (apply_world_updates 10 [] ⟨0, generalSlotsUpTo 14⟩ ⟨0, spawnSlotsUpTo 14⟩
        [mkSpawnUpdate 12 [7], mkSpawnUpdate 14 [9]]).map
      (fun r => r.2.updates.map (fun s => (s.frame_number, s.spawn_actions)))
      = .ok [(0, []), (1, []), (2, []), (3, []), (4, []), (5, []), (6, []),
             (7, []), (8, []), (9, []), (10, []), (11, []), (12, [7]),
             (13, [9]), (14, [])] := by
  rfl

/-- C4 (amended): for an absorbed batch (sorted ascending), the spawn
buffer's `oldest_updated_frame` is set to the batch's first frame number;
slot frames are untouched; the k-th update's spawn actions are written
into the k-th spawn slot at or past the batch's first frame — which is the
slot with frame number `first + k` when the buffer's frames are
consecutive, and equals the update's own frame number only when the
batch's frames are consecutive; every slot before the window or past the
batch is untouched. -/
theorem c4_spawn_write (DELAY : Nat) (cps : List Nat)
    (fu : FramedUpdates ReceivedServerWorldUpdate) (sa : FramedUpdates SpawnActions)
    (first : ServerWorldUpdate) (rest : List ServerWorldUpdate)
    (fu1 : FramedUpdates ReceivedServerWorldUpdate) (sa1 : FramedUpdates SpawnActions)
    (h : apply_world_updates DELAY cps fu sa (first :: rest) = .ok (fu1, sa1)) :
    sa1.oldest_updated_frame = first.frame_number ∧
    sa1.updates.map (fun s => s.frame_number) = sa.updates.map (fun s => s.frame_number) ∧
    (∀ k, ∀ hk : k < (first :: rest).length,
      sa1.updates[(sa.updates.takeWhile
          (fun s => s.frame_number < first.frame_number)).length + k]?
        = (sa.updates[(sa.updates.takeWhile
            (fun s => s.frame_number < first.frame_number)).length + k]?).map
            (fun s => { s with spawn_actions := (first :: rest)[k].spawn_actions })) ∧
    (∀ i, (i < (sa.updates.takeWhile
          (fun s => s.frame_number < first.frame_number)).length
        ∨ (sa.updates.takeWhile
            (fun s => s.frame_number < first.frame_number)).length
          + (first :: rest).length ≤ i) →
      sa1.updates[i]? = sa.updates[i]?) ∧
    (∀ f0 len, sa.updates.map (fun s => s.frame_number) = List.range' f0 len →
      f0 ≤ first.frame_number →
      ∀ k, k < (first :: rest).length →
        (sa.updates.takeWhile
          (fun s => s.frame_number < first.frame_number)).length + k < len →
        (sa1.updates[(sa.updates.takeWhile
            (fun s => s.frame_number < first.frame_number)).length + k]?).map
            (fun s => s.frame_number)
          = some (first.frame_number + k)) := by
  obtain ⟨f, hf, hsa, -⟩ :=
    apply_world_updates_cons_ok DELAY cps fu sa first rest fu1 sa1 h
  have hffr : f.frame_number = first.frame_number :=
    collect_head_frame DELAY cps first rest f hf
  have hmaps := (apply_world_updates_map_frame DELAY cps fu sa (first :: rest)
    fu1 sa1 h).2
  have hclen : (collect_controlled_player_updates DELAY cps (first :: rest)).2.length
      = (first :: rest).length := collect_snd_length DELAY cps (first :: rest)
  have hsplit := List.takeWhile_append_dropWhile
    (fun s => decide (s.frame_number < first.frame_number)) sa.updates
  have hdlen : (sa.updates.takeWhile
      (fun s => decide (s.frame_number < first.frame_number))).length
      ≤ sa.updates.length := (List.takeWhile_prefix _).length_le
  refine ⟨?_, hmaps, ?_, ?_, ?_⟩
  · rw [hsa]
    exact hffr
  · intro k hk
    rw [hsa]
    simp only [hffr]
    rw [List.getElem?_append_right (by omega), Nat.add_sub_cancel_left]
    rw [writeSpawnSlots_getElem?_written _ _ k (by omega)]
    have hkc : k < (collect_controlled_player_updates DELAY cps (first :: rest)).2.length := by
      omega
    have hsp : ((collect_controlled_player_updates DELAY cps (first :: rest)).2[k]).spawn_actions
        = (first :: rest)[k].spawn_actions := by
      have hse := collect_snd_spawn_getElem DELAY cps (first :: rest) k
      rw [List.getElem?_eq_getElem hkc, List.getElem?_eq_getElem hk] at hse
      simpa using hse
    rw [hsp]
    have hback : ∀ (pre post : List SpawnActions), pre ++ post = sa.updates →
        sa.updates[pre.length + k]? = post[k]? := by
      intro pre post hpp
      rw [← hpp, List.getElem?_append_right (by omega), Nat.add_sub_cancel_left]
    rw [hback _ _ hsplit]
  · intro i hi
    rw [hsa]
    simp only [hffr]
    have hidx : ∀ (pre post : List SpawnActions), pre ++ post = sa.updates →
        (i < pre.length → sa.updates[i]? = pre[i]?) ∧
        (pre.length ≤ i → sa.updates[i]? = post[i - pre.length]?) := by
      intro pre post hpp
      constructor
      · intro hlt
        rw [← hpp, List.getElem?_append_left hlt]
      · intro hge
        rw [← hpp, List.getElem?_append_right hge]
    rcases hi with hi | hi
    · rw [List.getElem?_append_left hi, ((hidx _ _ hsplit).1 hi)]
    · rw [List.getElem?_append_right (by omega)]
      rw [writeSpawnSlots_getElem?_untouched _ _ _ (by omega)]
      rw [((hidx _ _ hsplit).2 (by omega))]
  · intro f0 len hr hle k hk hlen
    have hd : (sa.updates.takeWhile
        (fun s => decide (s.frame_number < first.frame_number))).length
        = min len (first.frame_number - f0) :=
      takeWhile_length_of_map_range' sa.updates f0 len first.frame_number hr
    have hdval : (sa.updates.takeWhile
        (fun s => decide (s.frame_number < first.frame_number))).length
        = first.frame_number - f0 := by omega
    have hm1 : (sa1.updates.map (fun s => s.frame_number))[
        (sa.updates.takeWhile
          (fun s => decide (s.frame_number < first.frame_number))).length + k]?
        = some (f0 + ((sa.updates.takeWhile
            (fun s => decide (s.frame_number < first.frame_number))).length + k)) := by
      rw [hmaps, hr, List.getElem?_range' _ _ (by omega)]
      simp [Nat.mul_comm]
    rw [List.getElem?_map] at hm1
    rw [hm1]
    congr 1
    omega

/-- C4 witness: the spec-scenario batch (frames 20–22, consecutive)
against the absorbed sample state — the second update's spawn actions land
in the slot whose frame is `20 + 1 = 21`, its own frame number. -/
theorem c4_witness :
    ((sampleStateAfter.spawn_actions.updates[
        ((sampleState.spawn_actions.reserve_updates 25).updates.takeWhile
          (fun s => s.frame_number < 20)).length + 1]?).map
        (fun s => s.frame_number))
      = some (20 + 1) :=
  (c4_spawn_write 10 [5]
      (sampleState.framed_updates.reserve_updates 25)
      (sampleState.spawn_actions.reserve_updates 25)
      (mkSpawnUpdate 20 []) [mkSpawnUpdate 21 [], mkSpawnUpdate 22 []]
      sampleStateAfter.framed_updates sampleStateAfter.spawn_actions
      (by rfl)).2.2.2.2 0 26 (by rfl) (by decide) 1 (by decide) (by decide)

end GrumpyClient
